import Mathlib

/-!
# Jira Lite: key assignment, filtering, board columns and issue actions

A shallow embedding of `src/app/page.js`.  JavaScript strings are Lean strings
(worked on as lists of characters), the React state of `Home` is a record, and
the hosted table `issues` is an explicit store that the actions read and write.
-/

namespace JiraLite

/-! ## JavaScript numbers that hold a natural number -/

/-- A JavaScript Number whose value is a non-negative integer, or `+Infinity`.
`fin n` stands for the binary64 value `n`. -/
inductive JsNum where
  | fin (n : Nat)
  | inf
  deriving DecidableEq, Repr

/-- Binary logarithm rounded down, by repeated halving; `fuel` bounds the number of
halvings. -/
def log2Fuel : Nat → Nat → Nat
  | 0, _ => 0
  | fuel + 1, n => if n < 2 then 0 else log2Fuel fuel (n / 2) + 1

/-- The position of the leading bit of `n` (0 for `n = 0`). -/
def floorLog2 (n : Nat) : Nat :=
  log2Fuel n n

/-- The binary64 value nearest to the natural number `n` (round to nearest, ties to
even).  Below `2^53` every natural number is a binary64 value; above, the 53 leading
bits are kept and the rest is rounded; a result of `2^1024` or more (one whose binary
logarithm reaches 1024) is `+Infinity`. -/
def roundToDouble (n : Nat) : JsNum :=
  if n < 2 ^ 53 then JsNum.fin n
  else
    let e := floorLog2 n - 52
    let q := n / 2 ^ e
    let r := n % 2 ^ e
    let half := 2 ^ (e - 1)
    let q1 := if half < r ∨ (r = half ∧ q % 2 = 1) then q + 1 else q
    let v := q1 * 2 ^ e
    if 1024 ≤ floorLog2 v then JsNum.inf else JsNum.fin v

/-- The mathematical value of a string of decimal digits (most significant first). -/
def digitsValue (ds : List Char) : Nat :=
  ds.foldl (fun acc c => acc * 10 + (c.toNat - 48)) 0

/-- The call `Number(s)` for a string `s` of decimal digits: the binary64 value nearest to
the integer the digits denote. -/
def Number (ds : List Char) : JsNum :=
  roundToDouble (digitsValue ds)

/-- The sum `x + 1` in binary64 arithmetic. -/
def JsNum.addOne : JsNum → JsNum
  | JsNum.fin n => roundToDouble (n + 1)
  | JsNum.inf => JsNum.inf

/-- The multiple of `10^m` that converts back to the binary64 value `x` and is nearest to
`x` (the even multiple on a tie), if there is one among the two multiples around `x`. -/
def shortestAt (x m : Nat) : Option Nat :=
  let lo := x / 10 ^ m * 10 ^ m
  let hi := lo + 10 ^ m
  let okLo := decide (roundToDouble lo = JsNum.fin x)
  let okHi := decide (roundToDouble hi = JsNum.fin x)
  let preferLo := decide (x - lo < hi - x) || (decide (x - lo = hi - x) && decide (x / 10 ^ m % 2 = 0))
  if okLo && (!okHi || preferLo) then some lo
  else if okHi then some hi
  else none

/-- Search from the coarsest scale `10^m` down to `10^0` for the decimal with the fewest
significant digits that converts back to `x`. -/
def shortestFrom (x : Nat) : Nat → Nat
  | 0 => x
  | m + 1 =>
    match shortestAt x (m + 1) with
    | some v => v
    | none => shortestFrom x m

/-- The decimal with the fewest significant digits that denotes the binary64 value `x`. -/
def shortestDecimal (x : Nat) : Nat :=
  shortestFrom x ((Nat.toDigits 10 x).length - 1)

/-- Drop the trailing zeros of a digit string. -/
def dropTrailingZeros (ds : List Char) : List Char :=
  (ds.reverse.dropWhile (fun c => c == '0')).reverse

/-- The call `String(x)` for a Number holding a natural number: plain decimal digits up to 21
digits, exponential form beyond, `Infinity` for the infinite value. -/
def JsNum.toString : JsNum → List Char
  | JsNum.inf => "Infinity".data
  | JsNum.fin x =>
    let ds := Nat.toDigits 10 (shortestDecimal x)
    if ds.length ≤ 21 then ds
    else
      match dropTrailingZeros ds with
      | [] => ds
      | [d] => d :: 'e' :: '+' :: Nat.toDigits 10 (ds.length - 1)
      | d :: rest => d :: '.' :: (rest ++ 'e' :: '+' :: Nat.toDigits 10 (ds.length - 1))

/-- The call `s.padStart(n, c)` for a one-character filler. -/
def padStart (s : List Char) (n : Nat) (c : Char) : List Char :=
  List.replicate (n - s.length) c ++ s

/-! ## Key assignment -/

/-- Characters that have a meaning of their own in a regular-expression pattern. -/
def isSyntaxCharacter (c : Char) : Bool :=
  c == '^' || c == '$' || c == '\\' || c == '.' || c == '*' || c == '+' || c == '?' ||
  c == '(' || c == ')' || c == '[' || c == ']' || c == '\x7b' || c == '\x7d' || c == '|'

/-- A key prefix that the pattern of `getNextIssueKey` reads literally: it has no
pattern syntax character.  The page only ever passes `"APP"`. -/
def validPrefix (pfx : String) : Prop :=
  ∀ c ∈ pfx.data, isSyntaxCharacter c = false

instance (pfx : String) : Decidable (validPrefix pfx) := by
  unfold validPrefix; infer_instance

/-- Remove the literal `p` from the front of `s`, if `s` starts with it. -/
def dropLiteral : List Char → List Char → Option (List Char)
  | [], s => some s
  | _ :: _, [] => none
  | c :: p, d :: s => if c = d then dropLiteral p s else none

/-- The first capture group of `new RegExp("^" + pfx + "-(\\d+)$").exec(lastKey)`, or
`none` for a `null` result.  The source splices `pfx` into the pattern unescaped, so the
embedding agrees with it on the prefixes that satisfy `validPrefix`: there the pattern
matches exactly `pfx`, a hyphen and one or more of the digits `0`..`9` up to the end of
the input. -/
def regExpExec (pfx lastKey : List Char) : Option (List Char) :=
  match dropLiteral (pfx ++ ['-']) lastKey with
  | none => none
  | some rest => if rest ≠ [] ∧ rest.all Char.isDigit = true then some rest else none

/-- The function `getNextIssueKey(lastKey, prefix)`: the value it returns for a prefix
that satisfies `validPrefix`, where `regExpExec` reads the pattern as the source builds
it; `getNextIssueKeyCall` below adds the exception of a pattern that does not compile. -/
def getNextIssueKey (lastKey pfx : String) : String :=
  let m := regExpExec pfx.data lastKey.data
  let nextNumber :=
    match m with
    | some g => (Number g).addOne
    | none => JsNum.fin 1
  let padded := padStart nextNumber.toString 4 '0'
  String.mk (pfx.data ++ '-' :: padded)

/-- The outcome of a call: the value returned, the name of the exception thrown, or no
answer where the prefix is a pattern that the embedding does not read. -/
inductive CallResult where
  | returned (value : String)
  | threw (exception : String)
  | notModelled
  deriving DecidableEq, Repr

/-- A prefix that opens more groups than it closes: it has no backslash and no `[`, so
each of its parentheses opens or closes a group of the pattern, and it has more `(` than
`)`.  The rest of the pattern, `^`, `-(\d+)$`, is balanced, so the pattern built from
such a prefix has an unterminated group and `new RegExp` throws a `SyntaxError`. -/
def unbalancedPrefix (pfx : List Char) : Bool :=
  !pfx.contains '\\' && !pfx.contains '[' && decide (pfx.count ')' < pfx.count '(')

/-- The call `getNextIssueKey(lastKey, prefix)` with its exception: for a valid prefix
the value of `getNextIssueKey`; for a prefix with an unterminated group the `SyntaxError`
of `new RegExp`; the other prefixes are patterns of their own, left to the engine. -/
def getNextIssueKeyCall (lastKey pfx : String) : CallResult :=
  if validPrefix pfx then CallResult.returned (getNextIssueKey lastKey pfx)
  else if unbalancedPrefix pfx.data then CallResult.threw "SyntaxError"
  else CallResult.notModelled

/-! ## JavaScript strings and values -/

/-- White space and line terminators, the characters `String.prototype.trim` removes. -/
def isJsWhiteSpace (c : Char) : Bool :=
  let n := c.toNat
  n == 0x09 || n == 0x0A || n == 0x0B || n == 0x0C || n == 0x0D || n == 0x20 ||
  n == 0xA0 || n == 0x1680 || (0x2000 ≤ n && n ≤ 0x200A) || n == 0x2028 || n == 0x2029 ||
  n == 0x202F || n == 0x205F || n == 0x3000 || n == 0xFEFF

/-- The call `s.trim()`. -/
def trim (s : String) : String :=
  String.mk ((s.data.dropWhile isJsWhiteSpace).reverse.dropWhile isJsWhiteSpace).reverse

/-- The call `s.includes(t)`: some suffix of `s` starts with `t`. -/
def includes : List Char → List Char → Bool
  | [], t => t.isEmpty
  | c :: s, t => t.isPrefixOf (c :: s) || includes s t

/-- A binary64 value, given by its 64-bit pattern. -/
structure Double where
  bits : Nat
  deriving DecidableEq, Repr

/-- The functions of the JavaScript runtime that the page calls and whose tables are not
part of the source: `String.prototype.toLowerCase` (Unicode case mapping) and `Number`
applied to the text of a number input.  The empty string has no character to map. -/
structure Runtime where
  toLowerCase : String → String
  toNumber : String → Double
  toLowerCase_empty : toLowerCase "" = ""

/-- A value stored in a field of a request payload. -/
inductive JsValue where
  | null
  | str (s : String)
  | num (d : Double)
  deriving DecidableEq, Repr

/-- An object literal sent to the store: field names with their values, in source order. -/
abbrev Payload := List (String × JsValue)

/-- The expression `s || null` for a string `s`. -/
def orNull (s : String) : JsValue :=
  if s = "" then JsValue.null else JsValue.str s

/-! ## Data model -/

/-- A row of the table `issues`.  The nullable columns are options. -/
structure Issue where
  id : String
  issue_key : String
  summary : String
  description : String
  acceptance_criteria : String
  issue_type : String
  priority : String
  story_points : Option Double
  start_date : Option String
  due_date : Option String
  sprint : Option String
  status : Option String
  created_at : String
  deriving DecidableEq, Repr

/-- A nullable string column as a payload value. -/
def optStr : Option String → JsValue
  | some s => JsValue.str s
  | none => JsValue.null

/-- A nullable number column as a payload value. -/
def optNum : Option Double → JsValue
  | some d => JsValue.num d
  | none => JsValue.null

/-- The React state of `Home`. -/
structure PageState where
  issues : List Issue := []
  isLoading : Bool := true
  isCreating : Bool := false
  error : String := ""
  editingId : Option String := none
  activeTab : String := "board"
  showForm : Bool := false
  dragStatus : String := ""
  summary : String := ""
  description : String := ""
  acceptanceCriteria : String := ""
  issueType : String := "Story"
  priority : String := "P2"
  storyPoints : String := ""
  startDate : String := ""
  dueDate : String := ""
  sprint : String := ""
  search : String := ""
  deriving DecidableEq, Repr

/-! ## Filtering and board columns -/

/-- The memo `filteredIssues`. -/
def filteredIssues (rt : Runtime) (issues : List Issue) (search : String) : List Issue :=
  let term := rt.toLowerCase (trim search)
  if term = "" then issues
  else issues.filter (fun issue => includes (rt.toLowerCase issue.summary).data term.data)

/-- The per-status lists `backlog`, `sprintIssues`, `inProgress`, `done`, `released`:
`filteredIssues.filter((issue) => issue.status === status)`. -/
def withStatus (filtered : List Issue) (status : String) : List Issue :=
  filtered.filter (fun issue => issue.status = some status)

/-- The statuses of the four columns rendered for a tab, left to right: the standard
board for `activeTab === "board"`, the sprint board otherwise. -/
def columnStatuses (activeTab : String) : List String :=
  if activeTab = "board" then ["backlog", "sprint", "in_progress", "done"]
  else ["sprint", "in_progress", "done", "released"]

/-- The issue lists of the four columns rendered for a tab. -/
def columns (activeTab : String) (filtered : List Issue) : List (List Issue) :=
  (columnStatuses activeTab).map (withStatus filtered)

/-- The number of rendered columns that show the issue. -/
def columnCount (activeTab : String) (filtered : List Issue) (issue : Issue) : Nat :=
  ((columns activeTab filtered).filter (fun col => decide (issue ∈ col))).length

/-! ## The persistence collaborator, as seen from the page -/

/-- A request sent to the table `issues`. -/
inductive Request where
  | selectLastKey
  | insert (row : Payload)
  | update (id : String) (fields : Payload)
  | delete (id : String)
  deriving DecidableEq, Repr

/-- The answers `{ data, error }` of the store to the requests of one action: an error
message or the data.  An action sends each kind of request at most once. -/
structure Remote where
  selectLastKey : Except String (List String)
  insert : Payload → Except String Issue
  update : String → Payload → Except String Issue
  delete : String → Except String Unit

/-! ## Actions -/

/-- The function `resetForm`. -/
def resetForm (st : PageState) : PageState :=
  { st with
    editingId := none, showForm := false, summary := "", description := "",
    acceptanceCriteria := "", issueType := "Story", priority := "P2", storyPoints := "",
    startDate := "", dueDate := "", sprint := "" }

/-- The fields that the form writes on an edit and on a create. -/
def formFields (rt : Runtime) (st : PageState) : Payload :=
  [("summary", JsValue.str (trim st.summary)),
   ("description", JsValue.str (trim st.description)),
   ("acceptance_criteria", JsValue.str (trim st.acceptanceCriteria)),
   ("issue_type", JsValue.str st.issueType),
   ("priority", JsValue.str st.priority),
   ("story_points",
      if st.storyPoints = "" then JsValue.null else JsValue.num (rt.toNumber st.storyPoints)),
   ("start_date", orNull st.startDate),
   ("due_date", orNull st.dueDate),
   ("sprint", orNull (trim st.sprint))]

/-- The object passed to `.update(...)` in the edit branch of `onSubmit`. -/
def editPayload (rt : Runtime) (st : PageState) : Payload :=
  formFields rt st

/-- The object passed to `.insert([...])` in the create branch of `onSubmit`. -/
def createPayload (rt : Runtime) (st : PageState) (nextKey : String) : Payload :=
  ("issue_key", JsValue.str nextKey) :: (formFields rt st ++ [("status", JsValue.str "backlog")])

/-- The required-field check at the top of `onSubmit`. -/
def missingRequired (st : PageState) : Bool :=
  decide (trim st.summary = "") || decide (trim st.description = "") ||
  decide (trim st.acceptanceCriteria = "") || decide (st.issueType = "") ||
  decide (st.priority = "")

/-- The key derivation shared by `onSubmit` and `copyIssue`:
`getNextIssueKey(data?.[0]?.issue_key ?? "", "APP")`. -/
def nextKeyOf (data : List String) : String :=
  getNextIssueKey (data.head?.getD "") "APP"

/-- The test `if (editingId)`: the id being edited when it is neither `null` nor the
empty string. -/
def truthyId : Option String → Option String
  | some id => if id = "" then none else some id
  | none => none

/-- The handler `onSubmit` run to completion against the answers `remote`: the new page
state and the requests sent, in order. -/
def onSubmit (rt : Runtime) (remote : Remote) (st0 : PageState) : PageState × List Request :=
  let st := { st0 with error := "" }
  if missingRequired st then
    ({ st with error := "Please fill all required fields." }, [])
  else if st.isCreating then (st, [])
  else
    match truthyId st.editingId with
    | some editingId =>
      let fields := editPayload rt st
      match remote.update editingId fields with
      | Except.error message =>
        ({ st with error := message, isCreating := false }, [Request.update editingId fields])
      | Except.ok updated =>
        ({ resetForm { st with
              issues := st.issues.map (fun issue => if issue.id = editingId then updated else issue) }
            with isCreating := false },
          [Request.update editingId fields])
    | none =>
      match remote.selectLastKey with
      | Except.error message =>
        ({ st with error := message, isCreating := false }, [Request.selectLastKey])
      | Except.ok data =>
        let row := createPayload rt st (nextKeyOf data)
        match remote.insert row with
        | Except.error message =>
          ({ st with error := message, isCreating := false },
            [Request.selectLastKey, Request.insert row])
        | Except.ok created =>
          ({ resetForm { st with issues := created :: st.issues } with isCreating := false },
            [Request.selectLastKey, Request.insert row])

/-- The object passed to `.update(...)` by `moveIssue`. -/
def movePayload (status : String) : Payload :=
  [("status", JsValue.str status)]

/-- The function `moveIssue(id, status)` run to completion. -/
def moveIssue (remote : Remote) (st : PageState) (id status : String) :
    PageState × List Request :=
  match remote.update id (movePayload status) with
  | Except.error message =>
    ({ st with error := message }, [Request.update id (movePayload status)])
  | Except.ok data =>
    ({ st with issues := st.issues.map (fun issue => if issue.id = id then data else issue) },
      [Request.update id (movePayload status)])

/-- The function `deleteIssue(id)` run to completion; `confirmed` is the answer of
`window.confirm`. -/
def deleteIssue (remote : Remote) (st : PageState) (confirmed : Bool) (id : String) :
    PageState × List Request :=
  if !confirmed then (st, [])
  else
    match remote.delete id with
    | Except.error message => ({ st with error := message }, [Request.delete id])
    | Except.ok _ =>
      let st1 := { st with issues := st.issues.filter (fun issue => issue.id ≠ id) }
      (if st1.editingId = some id then resetForm st1 else st1, [Request.delete id])

/-- The object passed to `.insert([...])` by `copyIssue`. -/
def copyPayload (issue : Issue) (nextKey : String) : Payload :=
  [("issue_key", JsValue.str nextKey),
   ("summary", JsValue.str issue.summary),
   ("description", JsValue.str issue.description),
   ("acceptance_criteria", JsValue.str issue.acceptance_criteria),
   ("issue_type", JsValue.str issue.issue_type),
   ("priority", JsValue.str issue.priority),
   ("story_points", optNum issue.story_points),
   ("start_date", optStr issue.start_date),
   ("due_date", optStr issue.due_date),
   ("sprint", optStr issue.sprint),
   ("status", JsValue.str (issue.status.getD "backlog"))]

/-- The function `copyIssue(issue)` run to completion; `confirmed` is the answer of
`window.confirm`. -/
def copyIssue (remote : Remote) (st : PageState) (confirmed : Bool) (issue : Issue) :
    PageState × List Request :=
  if !confirmed then (st, [])
  else
    match remote.selectLastKey with
    | Except.error message => ({ st with error := message }, [Request.selectLastKey])
    | Except.ok data =>
      let row := copyPayload issue (nextKeyOf data)
      match remote.insert row with
      | Except.error message =>
        ({ st with error := message }, [Request.selectLastKey, Request.insert row])
      | Except.ok created =>
        ({ st with issues := created :: st.issues }, [Request.selectLastKey, Request.insert row])

/-! ## The store -/

/-- Modelled from the spec: the hosted table `issues` behind the client library, which is
not part of the source.  The rows are kept most recently created first, the order of
`created_at` descending that the page asks for. -/
structure Store where
  rows : List Issue := []
  deriving DecidableEq, Repr

/-- The value of a field of a payload, if the payload has the field. -/
def Payload.get (p : Payload) (field : String) : Option JsValue :=
  (p.find? (fun kv => kv.1 = field)).map (fun kv => kv.2)

/-- Modelled from the spec: a text column after a write; a payload without the field, or
with a value that is not a string, leaves the column as it was. -/
def writeStr (p : Payload) (field : String) (old : String) : String :=
  match p.get field with
  | some (JsValue.str s) => s
  | _ => old

/-- Modelled from the spec: a nullable text column after a write. -/
def writeOptStr (p : Payload) (field : String) (old : Option String) : Option String :=
  match p.get field with
  | some (JsValue.str s) => some s
  | some JsValue.null => none
  | _ => old

/-- Modelled from the spec: a nullable number column after a write. -/
def writeOptNum (p : Payload) (field : String) (old : Option Double) : Option Double :=
  match p.get field with
  | some (JsValue.num d) => some d
  | some JsValue.null => none
  | _ => old

/-- Modelled from the spec: `update one issue row`: the columns named in the payload take
the payload's values, the other columns keep theirs. -/
def applyPayload (p : Payload) (row : Issue) : Issue :=
  { id := writeStr p "id" row.id
    issue_key := writeStr p "issue_key" row.issue_key
    summary := writeStr p "summary" row.summary
    description := writeStr p "description" row.description
    acceptance_criteria := writeStr p "acceptance_criteria" row.acceptance_criteria
    issue_type := writeStr p "issue_type" row.issue_type
    priority := writeStr p "priority" row.priority
    story_points := writeOptNum p "story_points" row.story_points
    start_date := writeOptStr p "start_date" row.start_date
    due_date := writeOptStr p "due_date" row.due_date
    sprint := writeOptStr p "sprint" row.sprint
    status := writeOptStr p "status" row.status
    created_at := writeStr p "created_at" row.created_at }

/-- Modelled from the spec: `insert one issue row, return the created row`: the store
assigns `id` and `created_at`, the payload gives the other columns. -/
def newRow (id createdAt : String) (p : Payload) : Issue :=
  applyPayload p
    { id := id, issue_key := "", summary := "", description := "", acceptance_criteria := "",
      issue_type := "", priority := "", story_points := none, start_date := none,
      due_date := none, sprint := none, status := none, created_at := createdAt }

/-- Modelled from the spec: the answers of the store in a given state.  `id` and
`createdAt` are the values the store would assign to a row inserted now.
`select most recent issue_key only, limit 1` answers with the key of the first row;
`update one issue row by id, return the updated row` answers with an error unless exactly
one row has the id. -/
def Store.remote (s : Store) (id createdAt : String) : Remote :=
  { selectLastKey := Except.ok ((s.rows.take 1).map (fun row => row.issue_key))
    insert := fun p => Except.ok (newRow id createdAt p)
    update := fun target p =>
      match s.rows.filter (fun row => row.id = target) with
      | [row] => Except.ok (applyPayload p row)
      | _ => Except.error "JSON object requested, multiple (or no) rows returned"
    delete := fun _ => Except.ok () }

/-- Modelled from the spec: the effect of one request on the table. -/
def Store.apply (s : Store) (id createdAt : String) : Request → Store
  | Request.selectLastKey => s
  | Request.insert p => { rows := newRow id createdAt p :: s.rows }
  | Request.update target p =>
    match s.rows.filter (fun row => row.id = target) with
    | [_] => { rows := s.rows.map (fun row => if row.id = target then applyPayload p row else row) }
    | _ => s
  | Request.delete target => { rows := s.rows.filter (fun row => row.id ≠ target) }

/-- Modelled from the spec: the key of the most recently created row, or the empty string
for an empty table. -/
def Store.lastKey (s : Store) : String :=
  (s.rows.head?.map (fun row => row.issue_key)).getD ""

/-- The page together with the store it talks to, and the requests sent so far. -/
structure World where
  page : PageState := {}
  store : Store := {}
  sent : List Request := []
  deriving DecidableEq, Repr

/-- Run one action of the page against the store: the action gets the store's answers,
and the requests it sent are applied to the table in order. -/
def World.perform (w : World) (id createdAt : String)
    (action : Remote → PageState → PageState × List Request) : World :=
  let result := action (w.store.remote id createdAt) w.page
  { page := result.1
    store := result.2.foldl (fun s req => s.apply id createdAt req) w.store
    sent := w.sent ++ result.2 }

/-- The keys given to new issues so far: the `issue_key` of every insert sent, in order. -/
def assignedKeys : List Request → List String
  | [] => []
  | Request.insert p :: rest => writeStr p "issue_key" "" :: assignedKeys rest
  | _ :: rest => assignedKeys rest

/-! ## Runs of user actions -/

/-- What the user entered in the form fields. -/
structure FormInput where
  summary : String
  description : String
  acceptanceCriteria : String
  issueType : String := "Story"
  priority : String := "P2"
  storyPoints : String := ""
  startDate : String := ""
  dueDate : String := ""
  sprint : String := ""
  deriving DecidableEq, Repr

/-- The `onChange` and chip `onClick` handlers of the form: the fields take what the user
entered. -/
def fillForm (st : PageState) (f : FormInput) : PageState :=
  { st with
    summary := f.summary, description := f.description,
    acceptanceCriteria := f.acceptanceCriteria, issueType := f.issueType,
    priority := f.priority, storyPoints := f.storyPoints, startDate := f.startDate,
    dueDate := f.dueDate, sprint := f.sprint }

/-- An action of the user that creates or deletes an issue.  A create or a duplicate
comes with the `id` and `created_at` that the store assigns to the new row; both
confirmation dialogs are answered with OK. -/
inductive UserAction where
  | create (form : FormInput) (newId createdAt : String)
  | duplicate (issue : Issue) (newId createdAt : String)
  | delete (id : String)
  deriving DecidableEq, Repr

/-- One user action, run to completion before the next one starts. -/
def step (rt : Runtime) (w : World) : UserAction → World
  | UserAction.create form newId createdAt =>
    ({ w with page := fillForm w.page form }).perform newId createdAt (onSubmit rt)
  | UserAction.duplicate issue newId createdAt =>
    w.perform newId createdAt (fun remote st => copyIssue remote st true issue)
  | UserAction.delete id =>
    w.perform "" "" (fun remote st => deleteIssue remote st true id)

/-- The world after a sequence of user actions on a fresh page and an empty store. -/
def run (rt : Runtime) (actions : List UserAction) : World :=
  actions.foldl (step rt) {}

/-- The action deletes the most recently created issue of the store. -/
def deletesNewest (w : World) : UserAction → Bool
  | UserAction.delete id =>
    match w.store.rows with
    | [] => false
    | row :: _ => decide (row.id = id)
  | _ => false

/-- No action of the sequence, started in `w`, deletes the issue that is the most
recently created one of the store at that moment. -/
def sparesNewest (rt : Runtime) : World → List UserAction → Bool
  | _, [] => true
  | w, a :: rest => !deletesNewest w a && sparesNewest rt (step rt w a) rest

/-- The key with prefix `APP` and sequence number `n`. -/
def keyOf (n : Nat) : String :=
  String.mk ("APP".data ++ '-' :: padStart (Nat.toDigits 10 n) 4 '0')

/-- The state of a run in which `n` keys were assigned: no submission is in flight and no
edit is in progress, the keys assigned are those numbered 1 to `n` in order, and the most
recently created row of the store has the key numbered `n`. -/
def RunInvariant (n : Nat) (w : World) : Prop :=
  w.page.isCreating = false ∧ truthyId w.page.editingId = none ∧
    assignedKeys w.sent = (List.range n).map (fun k => keyOf (k + 1)) ∧
    ((n = 0 ∧ w.store.rows = []) ∨
      (0 < n ∧ ∃ row rest, w.store.rows = row :: rest ∧ row.issue_key = keyOf n))

/-! ## Drag and drop, forward moves and edits -/

/-- The handler `onDropColumn(event, status)`; `issueId` is the text carried by the drag
(`event.dataTransfer.getData("text/plain")`). -/
def onDropColumn (remote : Remote) (st : PageState) (issueId status : String) :
    PageState × List Request :=
  if issueId = "" then ({ st with dragStatus := "" }, [])
  else
    let moved := moveIssue remote st issueId status
    ({ moved.1 with dragStatus := "" }, moved.2)

/-- The status that the `onMove` handler of a card passes to `moveIssue`, by tab and by the
status of the column that shows the card; `none` when the tab has no column for the
status. -/
def forwardStatus (activeTab : String) (status : Option String) : Option String :=
  if activeTab = "board" then
    if status = some "backlog" then some "sprint"
    else if status = some "sprint" then some "in_progress"
    else if status = some "in_progress" then some "done"
    else if status = some "done" then some "backlog"
    else none
  else
    if status = some "sprint" then some "in_progress"
    else if status = some "in_progress" then some "done"
    else if status = some "done" then some "released"
    else if status = some "released" then some "sprint"
    else none

/-- The `onMove` handler of the card of `issue` on the active tab. -/
def onMove (remote : Remote) (st : PageState) (issue : Issue) : PageState × List Request :=
  match forwardStatus st.activeTab issue.status with
  | some target => moveIssue remote st issue.id target
  | none => (st, [])

/-- A click on the forward button of the card with the given id, run against the store. -/
def World.clickForward (id : String) (w : World) : World :=
  match w.page.issues.find? (fun issue => issue.id = id) with
  | some issue => w.perform "" "" (fun remote st => onMove remote st issue)
  | none => w

/-- The runtime together with `String` applied to a number, which `startEdit` uses to show
the story points. -/
structure Browser extends Runtime where
  numberToString : Double → String

/-- The function `startEdit(issue)`. -/
def startEdit (b : Browser) (st : PageState) (issue : Issue) : PageState :=
  { st with
    editingId := some issue.id, showForm := true, summary := issue.summary,
    description := issue.description, acceptanceCriteria := issue.acceptance_criteria,
    issueType := issue.issue_type, priority := issue.priority,
    storyPoints :=
      match issue.story_points with
      | none => ""
      | some points => b.numberToString points,
    startDate := issue.start_date.getD "", dueDate := issue.due_date.getD "",
    sprint := issue.sprint.getD "" }

/-- An action of the user on the board: one that creates or deletes an issue, a move of
an issue to a status (forward button or drop), or an edit (open the issue in the form,
change the fields, submit). -/
inductive BoardAction where
  | user (action : UserAction)
  | move (id status : String)
  | edit (issue : Issue) (form : FormInput)
  deriving DecidableEq, Repr

/-- One board action, run to completion before the next one starts. -/
def stepBoard (b : Browser) (w : World) : BoardAction → World
  | BoardAction.user action => step b.toRuntime w action
  | BoardAction.move id status =>
    w.perform "" "" (fun remote st => moveIssue remote st id status)
  | BoardAction.edit issue form =>
    ({ w with page := fillForm (startEdit b w.page issue) form }).perform "" ""
      (onSubmit b.toRuntime)

/-- The world after a sequence of board actions on a fresh page and an empty store. -/
def runBoard (b : Browser) (actions : List BoardAction) : World :=
  actions.foldl (stepBoard b) {}

/-- The sequence number of a key, as `getNextIssueKey` reads it with prefix `APP`: the
value of the digits after `APP-`, if the key has that form. -/
def sequenceNumber (key : String) : Option Nat :=
  (regExpExec "APP".data key.data).map digitsValue

/-- The rows have the keys numbered by a strictly decreasing list of numbers, none above
the bound: the table is newest first, so the numbers grow with creation order. -/
def KeysOrdered (bound : Nat) (rows : List Issue) : Prop :=
  ∃ ns : List Nat, rows.map (fun row => row.issue_key) = ns.map keyOf ∧
    ns.Sorted (fun a b => a > b) ∧ ∀ n ∈ ns, n ≤ bound

/-- The store and the page both hold exactly one issue with the id, the same row, and the
page shows the given tab. -/
def Synced (w : World) (id tab : String) (row : Issue) : Prop :=
  w.store.rows.filter (fun r => r.id = id) = [row] ∧
    w.page.issues.filter (fun issue => issue.id = id) = [row] ∧ w.page.activeTab = tab

/-- A store that cannot be reached: every request is answered with the error message. -/
def failingRemote (message : String) : Remote :=
  { selectLastKey := Except.error message
    insert := fun _ => Except.error message
    update := fun _ _ => Except.error message
    delete := fun _ => Except.error message }

/-- The request leaves the keys of the table in order: an update does not write
`issue_key`, and an insert writes the key derived from the last key of the table. -/
def KeySafe (s : Store) : Request → Prop
  | Request.selectLastKey => True
  | Request.insert p => writeStr p "issue_key" "" = getNextIssueKey s.lastKey "APP"
  | Request.update _ p => ∀ old : String, writeStr p "issue_key" old = old
  | Request.delete _ => True

/-- The requests of one action: none, one request, or a read of the last key followed by
one request, where the request leaves the keys in order. -/
def SafeRequests (s : Store) (reqs : List Request) : Prop :=
  ∃ r : Request, KeySafe s r ∧
    (reqs = [] ∨ reqs = [r] ∨ reqs = [Request.selectLastKey, r])

/-! ## Specification vocabulary and sample data -/

/-- The summary contains the term as a case-insensitive substring: the lower-cased term
occurs as a contiguous block of the lower-cased summary. -/
def caseInsensitiveSubstring (rt : Runtime) (term summary : String) : Prop :=
  ∃ a b : List Char, (rt.toLowerCase summary).data = a ++ (rt.toLowerCase term).data ++ b

/-- The text has ASCII characters only. -/
def isAscii (s : String) : Prop :=
  ∀ c ∈ s.data, c.toNat < 128

instance (s : String) : Decidable (isAscii s) := by
  unfold isAscii; infer_instance

/-- The law that pins `toLowerCase` on ASCII text: the letters `A`..`Z` become `a`..`z`
and every other character stays. -/
def AsciiLowerCase (rt : Runtime) : Prop :=
  ∀ s : String, isAscii s → rt.toLowerCase s = String.mk (s.data.map Char.toLower)

/-- Two texts are equal up to the case of their letters. -/
def sameIgnoringCase (u t : List Char) : Prop :=
  u.map Char.toLower = t.map Char.toLower

/-- The summary has a contiguous block of characters that equals the term up to the case
of letters. -/
def containsIgnoringCase (summary term : String) : Prop :=
  ∃ a u b : List Char, summary.data = a ++ u ++ b ∧ sameIgnoringCase u term.data

/-- The text is empty or consists of white space only. -/
def isBlank (s : String) : Prop :=
  ∀ c ∈ s.data, isJsWhiteSpace c = true

instance (s : String) : Decidable (isBlank s) := by
  unfold isBlank; infer_instance

/-- A runtime for the worked examples: `toLowerCase` on ASCII text, and a number
conversion that is not exercised (no example fills in story points). -/
def sampleRuntime : Runtime :=
  { toLowerCase := fun s => String.mk (s.data.map Char.toLower)
    toNumber := fun _ => { bits := 0 }
    toLowerCase_empty := rfl }

/-- A browser for the worked examples (no example shows story points). -/
def sampleBrowser : Browser :=
  { toRuntime := sampleRuntime, numberToString := fun _ => "0" }

/-- A sample row with the given id, key, summary and status. -/
def sampleIssue (id key summary : String) (status : Option String) : Issue :=
  { id := id, issue_key := key, summary := summary, description := "d",
    acceptance_criteria := "a", issue_type := "Bug", priority := "P0", story_points := none,
    start_date := none, due_date := none, sprint := none, status := status,
    created_at := "2024-01-01T00:00:00Z" }

/-- A sample world: two issues, on the page and in the store. -/
def sampleWorld : World :=
  { page :=
      { issues := [sampleIssue "i2" "APP-0002" "Write docs" (some "done"),
          sampleIssue "i1" "APP-0001" "Fix login Bug" (some "backlog")] }
    store :=
      { rows := [sampleIssue "i2" "APP-0002" "Write docs" (some "done"),
          sampleIssue "i1" "APP-0001" "Fix login Bug" (some "backlog")] } }

/-- A sample form: the first scenario of the specification. -/
def sampleForm : PageState :=
  { summary := "Fix crash on save", description := "...", acceptanceCriteria := "...",
    issueType := "Bug", priority := "P0" }

/-- A valid form input for the worked runs. -/
def sampleInput : FormInput :=
  { summary := "a", description := "b", acceptanceCriteria := "c" }

/-- A run of `n` valid create submissions; the store numbers the rows and stamps them
with the same number. -/
def creates (n : Nat) : List UserAction :=
  (List.range n).map
    (fun k => UserAction.create sampleInput (Nat.repr (k + 1)) (Nat.repr (k + 1)))

/-! ## Theorems -/

/-! ### Binary64 rounding -/

theorem log2Fuel_spec (fuel : Nat) : ∀ n : Nat, n ≤ fuel → 0 < n →
    2 ^ log2Fuel fuel n ≤ n ∧ n < 2 ^ (log2Fuel fuel n + 1) := by
  induction fuel with
  | zero => intro n h1 h2; omega
  | succ f ih =>
    intro n h1 h2
    unfold log2Fuel
    by_cases h : n < 2
    · simp only [h, if_true]; constructor <;> simp <;> omega
    · simp only [h, if_false]
      have hh := ih (n / 2) (by omega) (by omega)
      obtain ⟨a, b⟩ := hh
      rw [pow_succ] at b
      constructor
      · rw [pow_succ]; omega
      · rw [pow_succ, pow_succ]; omega

theorem floorLog2_spec (n : Nat) (h : 0 < n) :
    2 ^ floorLog2 n ≤ n ∧ n < 2 ^ (floorLog2 n + 1) :=
  log2Fuel_spec n n (Nat.le_refl n) h

theorem roundToDouble_of_lt (n : Nat) (h : n < 9007199254740992) :
    roundToDouble n = JsNum.fin n := by
  unfold roundToDouble
  have h53 : n < 2 ^ 53 := by norm_num; exact h
  rw [if_pos h53]

theorem roundToDouble_of_le (n : Nat) (h : n ≤ 9007199254740992) :
    roundToDouble n = JsNum.fin n := by
  rcases Nat.lt_or_eq_of_le h with h1 | h1
  · exact roundToDouble_of_lt n h1
  · subst h1; decide

theorem roundToDouble_large (n w : Nat) (h : 9007199254740994 ≤ n)
    (hw : roundToDouble n = JsNum.fin w) : 9007199254740992 < w := by
  unfold roundToDouble at hw
  have h53 : ¬ n < 2 ^ 53 := by norm_num; omega
  rw [if_neg h53] at hw
  obtain ⟨hlo, hhi⟩ := floorLog2_spec n (by omega)
  have hL : 53 ≤ floorLog2 n := by
    by_contra hc
    have h1 : floorLog2 n + 1 ≤ 53 := by omega
    have h2 : 2 ^ (floorLog2 n + 1) ≤ 2 ^ 53 := Nat.pow_le_pow_right (by decide) h1
    norm_num at h2
    omega
  obtain ⟨e, he⟩ : ∃ e, floorLog2 n = 52 + (e + 1) := ⟨floorLog2 n - 53, by omega⟩
  have he1 : floorLog2 n - 52 = e + 1 := by omega
  simp only [he1] at hw
  rw [he, pow_add] at hlo
  have hq : 2 ^ 52 ≤ n / 2 ^ (e + 1) := by
    rw [Nat.le_div_iff_mul_le (by positivity)]
    exact hlo
  have hdm := Nat.div_add_mod n (2 ^ (e + 1))
  have hpos : 0 < 2 ^ e := by positivity
  have hbig : 9007199254740992 < n / 2 ^ (e + 1) * 2 ^ (e + 1) := by
    rcases Nat.eq_zero_or_pos e with h0 | h0
    · subst h0
      norm_num at hq hdm ⊢
      omega
    · have h4 : 2 ^ 2 ≤ 2 ^ (e + 1) := Nat.pow_le_pow_right (by decide) (by omega)
      have := Nat.mul_le_mul hq h4
      norm_num at this ⊢
      omega
  have key : ∀ X : Nat, n / 2 ^ (e + 1) ≤ X →
      (if 1024 ≤ floorLog2 (X * 2 ^ (e + 1)) then JsNum.inf
        else JsNum.fin (X * 2 ^ (e + 1))) = JsNum.fin w → 9007199254740992 < w := by
    intro X hX hfin
    have hmul : n / 2 ^ (e + 1) * 2 ^ (e + 1) ≤ X * 2 ^ (e + 1) := Nat.mul_le_mul_right _ hX
    split at hfin
    · exact absurd hfin (by simp)
    · injection hfin with hfin
      omega
  refine key _ ?_ hw
  split <;> omega

/-! ### Printing a Number -/

theorem shortestAt_exact (x m v : Nat) (hx : x ≤ 9007199254740992)
    (h : shortestAt x m = some v) : v = x := by
  have hpos : 0 < 10 ^ m := by positivity
  have hlo : x / 10 ^ m * 10 ^ m ≤ x := Nat.div_mul_le_self x (10 ^ m)
  have hhi : x < x / 10 ^ m * 10 ^ m + 10 ^ m := by
    have := Nat.div_add_mod x (10 ^ m)
    have := Nat.mod_lt x hpos
    rw [Nat.mul_comm] at hlo ⊢
    omega
  have hrlo : roundToDouble (x / 10 ^ m * 10 ^ m) = JsNum.fin (x / 10 ^ m * 10 ^ m) :=
    roundToDouble_of_le _ (by omega)
  unfold shortestAt at h
  dsimp only at h
  split at h
  · rename_i hc
    injection h with h
    rw [Bool.and_eq_true] at hc
    have h1 := of_decide_eq_true hc.1
    rw [hrlo] at h1
    injection h1 with h1
    omega
  · rename_i hc
    split at h
    · rename_i hok
      have hok := of_decide_eq_true hok
      exfalso
      by_cases hh : x / 10 ^ m * 10 ^ m + 10 ^ m ≤ 9007199254740992
      · rw [roundToDouble_of_le _ hh] at hok
        injection hok with hok
        omega
      · by_cases hh1 : x / 10 ^ m * 10 ^ m + 10 ^ m = 9007199254740993
        · rcases Nat.eq_zero_or_pos m with h0 | h0
          · subst h0
            rw [hh1] at hok
            have h93 : roundToDouble 9007199254740993 = JsNum.fin 9007199254740992 := by
              decide
            rw [h93] at hok
            injection hok with hok
            subst hok
            exact hc (by decide)
          · have hd : 10 ∣ 10 ^ m := dvd_pow_self 10 (by omega)
            have hd2 : 10 ∣ x / 10 ^ m * 10 ^ m + 10 ^ m :=
              Dvd.dvd.add (Dvd.dvd.mul_left hd _) hd
            omega
        · have := roundToDouble_large _ x (by omega) hok
          omega
    · exact absurd h (by simp)

theorem shortestFrom_exact (x : Nat) (hx : x ≤ 9007199254740992) :
    ∀ m : Nat, shortestFrom x m = x := by
  intro m
  induction m with
  | zero => rfl
  | succ k ih =>
    unfold shortestFrom
    cases hs : shortestAt x (k + 1) with
    | none => simpa using ih
    | some v => simpa using shortestAt_exact x (k + 1) v hx hs

theorem toDigits_length_le (x : Nat) (hx : x ≤ 9007199254740992) :
    (Nat.toDigits 10 x).length ≤ 21 := by
  have hp : (10 : Nat) ^ 21 = 1000000000000000000000 := by norm_num
  have h := Nat.repr_length x 21 (by omega) (by rw [hp]; omega)
  unfold Nat.repr at h
  exact h

theorem toString_exact (x : Nat) (hx : x ≤ 9007199254740992) :
    (JsNum.fin x).toString = Nat.toDigits 10 x := by
  unfold JsNum.toString shortestDecimal
  simp only [shortestFrom_exact x hx]
  rw [if_pos (toDigits_length_le x hx)]

/-! ### The key pattern -/

theorem dropLiteral_eq_some (p : List Char) : ∀ s r : List Char,
    dropLiteral p s = some r ↔ s = p ++ r := by
  induction p with
  | nil => intro s r; simp [dropLiteral, eq_comm]
  | cons c p ih =>
    intro s r
    cases s with
    | nil => simp [dropLiteral]
    | cons d s =>
      by_cases hcd : c = d
      · subst hcd; simp [dropLiteral, ih]
      · simp [dropLiteral, hcd]
        intro hc; exact absurd hc.symm hcd

theorem regExpExec_eq_some (pfx key g : List Char) :
    regExpExec pfx key = some g ↔
      g ≠ [] ∧ (∀ c ∈ g, c.isDigit = true) ∧ key = pfx ++ '-' :: g := by
  unfold regExpExec
  cases hd : dropLiteral (pfx ++ ['-']) key with
  | none =>
    constructor
    · intro h; exact absurd h (by simp)
    · rintro ⟨_, _, hk⟩
      have := (dropLiteral_eq_some (pfx ++ ['-']) key g).2 (by simp [hk])
      rw [hd] at this; exact absurd this (by simp)
  | some rest =>
    have hk := (dropLiteral_eq_some _ _ _).1 hd
    simp only [List.append_assoc, List.singleton_append, List.nil_append] at hk
    dsimp only
    by_cases hr : rest ≠ [] ∧ rest.all Char.isDigit = true
    · rw [if_pos hr]
      constructor
      · intro hg
        injection hg with hg
        subst hg
        exact ⟨hr.1, by simpa using hr.2, hk⟩
      · rintro ⟨_, _, hk2⟩
        rw [hk] at hk2
        have : rest = g := by simpa using hk2
        rw [this]
    · rw [if_neg hr]
      constructor
      · intro h; exact absurd h (by simp)
      · rintro ⟨h1, h2, hk2⟩
        rw [hk] at hk2
        have : rest = g := by simpa using hk2
        subst this
        exact absurd ⟨h1, by simpa using h2⟩ hr

theorem regExpExec_eq_none (pfx key : List Char) :
    regExpExec pfx key = none ↔
      ¬ ∃ g : List Char, g ≠ [] ∧ (∀ c ∈ g, c.isDigit = true) ∧ key = pfx ++ '-' :: g := by
  constructor
  · rintro h ⟨g, hg⟩
    have := (regExpExec_eq_some pfx key g).2 hg
    rw [h] at this; exact absurd this (by simp)
  · intro h
    cases hr : regExpExec pfx key with
    | none => rfl
    | some g => exact absurd ⟨g, (regExpExec_eq_some pfx key g).1 hr⟩ h

/-! ### Key assignment: claims C1 and C2 -/

theorem getNextIssueKey_of_match (pfx d : List Char) (hne : d ≠ [])
    (hd : ∀ c ∈ d, c.isDigit = true) (hN : digitsValue d < 9007199254740992) :
    getNextIssueKey (String.mk (pfx ++ '-' :: d)) (String.mk pfx) =
      String.mk (pfx ++ '-' :: padStart (Nat.toDigits 10 (digitsValue d + 1)) 4 '0') := by
  have hm : regExpExec pfx (pfx ++ '-' :: d) = some d :=
    (regExpExec_eq_some pfx _ d).2 ⟨hne, hd, rfl⟩
  unfold getNextIssueKey
  simp only [hm, Number, JsNum.addOne, roundToDouble_of_lt _ hN]
  rw [roundToDouble_of_le _ (by omega), toString_exact _ (by omega)]

theorem getNextIssueKey_of_no_match (pfx key : List Char)
    (h : regExpExec pfx key = none) :
    getNextIssueKey (String.mk key) (String.mk pfx) = String.mk (pfx ++ "-0001".data) := by
  unfold getNextIssueKey
  simp only [h]
  rfl

/-- C1 (amended): for a valid prefix `P` and a last key `P-<d>` whose digits `<d>` denote
an integer `N` below `2^53`, `getNextIssueKey` returns `P-` followed by the decimal
representation of `N+1`, left-padded with zeros to at least 4 digits; a representation
of 4 digits or more is kept in full. -/
theorem getNextIssueKey_increments (pfx d : String) (_hp : validPrefix pfx)
    (hne : d.data ≠ []) (hd : ∀ c ∈ d.data, c.isDigit = true)
    (hN : digitsValue d.data < 2 ^ 53) :
    getNextIssueKey (pfx ++ "-" ++ d) pfx =
        pfx ++ "-" ++
          String.mk (List.replicate (4 - (Nat.repr (digitsValue d.data + 1)).length) '0') ++
          Nat.repr (digitsValue d.data + 1) ∧
      (4 ≤ (Nat.repr (digitsValue d.data + 1)).length →
        getNextIssueKey (pfx ++ "-" ++ d) pfx =
          pfx ++ "-" ++ Nat.repr (digitsValue d.data + 1)) := by
  have hN2 : digitsValue d.data < 9007199254740992 := by
    have h53 : (2 : Nat) ^ 53 = 9007199254740992 := by norm_num
    omega
  have hkey := getNextIssueKey_of_match pfx.data d.data hne hd hN2
  have hin : pfx ++ "-" ++ d = String.mk (pfx.data ++ '-' :: d.data) := by
    apply String.ext; simp
  have h1 : getNextIssueKey (pfx ++ "-" ++ d) pfx =
      pfx ++ "-" ++
        String.mk (List.replicate (4 - (Nat.repr (digitsValue d.data + 1)).length) '0') ++
        Nat.repr (digitsValue d.data + 1) := by
    rw [hin, hkey]
    apply String.ext
    simp only [String.data_append, padStart, Nat.repr, List.asString, String.length,
      List.append_assoc]
    rfl
  refine ⟨h1, fun h4 => ?_⟩
  rw [h1]
  apply String.ext
  have h0 : 4 - (Nat.repr (digitsValue d.data + 1)).length = 0 := by omega
  simp only [h0, String.data_append, List.replicate_zero, List.append_nil]

/-- Witness for C1: after `APP-9999` comes `APP-10000`. -/
theorem getNextIssueKey_increments_witness :
    getNextIssueKey ("APP" ++ "-" ++ "9999") "APP" =
        "APP" ++ "-" ++
          String.mk (List.replicate (4 - (Nat.repr (digitsValue "9999".data + 1)).length) '0') ++
          Nat.repr (digitsValue "9999".data + 1) ∧
      (4 ≤ (Nat.repr (digitsValue "9999".data + 1)).length →
        getNextIssueKey ("APP" ++ "-" ++ "9999") "APP" =
          "APP" ++ "-" ++ Nat.repr (digitsValue "9999".data + 1)) :=
  getNextIssueKey_increments "APP" "9999" (by decide) (by decide) (by decide) (by decide)

/-- Counterexample to C1 as stated: the digits of `APP-9007199254740992` denote
`N = 2^53`; `N + 1` is not a binary64 value, the sum rounds back to `N`, and the key
returned is the last key again instead of `APP-9007199254740993`. -/
theorem getNextIssueKey_repeats_at_two_pow_53 :
    validPrefix "APP" ∧
      digitsValue "9007199254740992".data = 2 ^ 53 ∧
      Nat.repr (2 ^ 53 + 1) = "9007199254740993" ∧
      getNextIssueKey "APP-9007199254740992" "APP" = "APP-9007199254740992" ∧
      getNextIssueKey "APP-9007199254740992" "APP" ≠ "APP-9007199254740993" := by
  refine ⟨by decide, by decide, by decide, by decide, by decide⟩

/-- C2 (amended): for a valid prefix `P`, one without pattern syntax characters, and a
last key that is not `P-` followed by one or more decimal digits (the empty string, a key
with another prefix, a key whose numeric part is empty or has a non-digit),
`getNextIssueKey` returns exactly `P-0001`, and the call throws nothing. -/
theorem getNextIssueKey_restarts (pfx lastKey : String) (hp : validPrefix pfx)
    (h : ¬ ∃ d : String, d.data ≠ [] ∧ (∀ c ∈ d.data, c.isDigit = true) ∧
      lastKey = pfx ++ "-" ++ d) :
    getNextIssueKey lastKey pfx = pfx ++ "-0001" ∧
      getNextIssueKeyCall lastKey pfx = CallResult.returned (pfx ++ "-0001") := by
  have hnone : regExpExec pfx.data lastKey.data = none := by
    rw [regExpExec_eq_none]
    rintro ⟨g, hg1, hg2, hg3⟩
    refine h ⟨String.mk g, hg1, hg2, ?_⟩
    apply String.ext
    simp only [hg3, String.data_append, List.append_assoc]
    rfl
  have hkey : getNextIssueKey lastKey pfx = pfx ++ "-0001" := by
    have hmk := getNextIssueKey_of_no_match pfx.data lastKey.data hnone
    rw [hmk]
    apply String.ext
    simp only [String.data_append]
  refine ⟨hkey, ?_⟩
  unfold getNextIssueKeyCall
  rw [if_pos hp, hkey]

/-- Witness for C2: no issue yet (empty last key) gives `APP-0001`. -/
theorem getNextIssueKey_restarts_witness :
    getNextIssueKey "" "APP" = "APP" ++ "-0001" ∧
      getNextIssueKeyCall "" "APP" = CallResult.returned ("APP" ++ "-0001") :=
  getNextIssueKey_restarts "APP" "" (by decide) (by
    rintro ⟨d, _, _, hd⟩
    have hlen := congrArg (fun s : String => s.data.length) hd
    simp only [String.data_append, List.length_append, List.length_cons, List.length_nil]
      at hlen
    omega)

/-- Counterexample to C2 as stated: the prefix `(` is spliced into the pattern unescaped,
the pattern `^(-(\d+)$` has an unterminated group, and the call with the empty last key
throws a `SyntaxError` instead of returning `(-0001`. -/
theorem getNextIssueKeyCall_throws_on_open_paren :
    ¬ validPrefix "(" ∧
      getNextIssueKeyCall "" "(" = CallResult.threw "SyntaxError" ∧
      getNextIssueKeyCall "" "(" ≠ CallResult.returned "(-0001" := by
  refine ⟨by decide, by decide, by decide⟩

/-! ### Filtering: claims C3 and C4 -/

theorem includes_iff (s t : List Char) :
    includes s t = true ↔ ∃ a b : List Char, s = a ++ t ++ b := by
  induction s with
  | nil =>
    simp only [includes, List.isEmpty_iff]
    constructor
    · intro h; exact ⟨[], [], by simp [h]⟩
    · rintro ⟨a, b, h⟩
      have hl := congrArg List.length h
      simp only [List.length_nil, List.length_append] at hl
      exact List.length_eq_zero.1 (by omega)
  | cons c s ih =>
    simp only [includes, Bool.or_eq_true, List.isPrefixOf_iff_prefix, ih]
    constructor
    · rintro (⟨b, hb⟩ | ⟨a, b, hab⟩)
      · exact ⟨[], b, by simp [hb]⟩
      · exact ⟨c :: a, b, by simp [hab]⟩
    · rintro ⟨a, b, hab⟩
      cases a with
      | nil => exact Or.inl ⟨b, by simpa using hab.symm⟩
      | cons x a =>
        simp only [List.cons_append, List.cons.injEq] at hab
        exact Or.inr ⟨a, b, hab.2⟩

theorem trim_eq_empty (search : String) (h : isBlank search) : trim search = "" := by
  unfold trim
  have h1 : search.data.dropWhile isJsWhiteSpace = [] := by
    rw [List.dropWhile_eq_nil_iff]; exact h
  rw [h1]
  rfl

theorem filteredIssues_mem (rt : Runtime) (issues : List Issue) (search : String)
    (issue : Issue) :
    issue ∈ filteredIssues rt issues search ↔
      issue ∈ issues ∧ caseInsensitiveSubstring rt (trim search) issue.summary := by
  unfold filteredIssues caseInsensitiveSubstring
  by_cases hterm : rt.toLowerCase (trim search) = ""
  · simp only [hterm, if_true]
    constructor
    · intro h
      exact ⟨h, (rt.toLowerCase issue.summary).data, [], by
        have h0 : ("" : String).data = [] := rfl
        simp [h0]⟩
    · intro h; exact h.1
  · simp only [hterm, if_false]
    rw [List.mem_filter, includes_iff]

theorem filteredIssues_sublist (rt : Runtime) (issues : List Issue) (search : String) :
    (filteredIssues rt issues search).Sublist issues := by
  unfold filteredIssues
  dsimp only
  split
  · exact List.Sublist.refl _
  · exact List.filter_sublist _

theorem isAscii_trim (s : String) (h : isAscii s) : isAscii (trim s) := by
  intro c hc
  unfold trim at hc
  have h1 : c ∈ (s.data.dropWhile isJsWhiteSpace).reverse.dropWhile isJsWhiteSpace :=
    List.mem_reverse.1 hc
  have h2 : c ∈ (s.data.dropWhile isJsWhiteSpace).reverse :=
    (List.dropWhile_sublist _).subset h1
  exact h c ((List.dropWhile_sublist _).subset (List.mem_reverse.1 h2))

theorem map_block_iff (f : Char → Char) (s t : List Char) :
    (∃ a b : List Char, s.map f = a ++ t.map f ++ b) ↔
      ∃ a u b : List Char, s = a ++ u ++ b ∧ u.map f = t.map f := by
  constructor
  · rintro ⟨a, b, h⟩
    obtain ⟨l1, l2, hs, h1, _⟩ := List.map_eq_append_iff.1 h
    obtain ⟨l11, l12, hl1, _, h12⟩ := List.map_eq_append_iff.1 h1
    exact ⟨l11, l12, l2, by rw [hs, hl1], h12⟩
  · rintro ⟨a, u, b, hs, hu⟩
    exact ⟨a.map f, b.map f, by rw [hs, List.map_append, List.map_append, hu]⟩

theorem containsIgnoringCase_iff (rt : Runtime) (hrt : AsciiLowerCase rt)
    (term summary : String) (hterm : isAscii term) (hsummary : isAscii summary) :
    caseInsensitiveSubstring rt term summary ↔ containsIgnoringCase summary term := by
  unfold caseInsensitiveSubstring containsIgnoringCase sameIgnoringCase
  rw [hrt term hterm, hrt summary hsummary]
  exact map_block_iff Char.toLower summary.data term.data

theorem containsIgnoringCase_includes (summary term : String) :
    containsIgnoringCase summary term ↔
      includes (summary.data.map Char.toLower) (term.data.map Char.toLower) = true := by
  unfold containsIgnoringCase sameIgnoringCase
  rw [includes_iff]
  exact (map_block_iff Char.toLower summary.data term.data).symm

/-- C3 (amended): with `toLowerCase` pinned on ASCII text, the filtered list keeps the
order of the issue list and contains an issue if and only if the issue is in the list and
its summary contains the search term, the search text without surrounding white space,
as a case-insensitive substring: the lower-cased term is a block of the lower-cased
summary and, for ASCII text, some block of the summary equals the term up to the case of
letters. -/
theorem filteredIssues_spec (rt : Runtime) (hrt : AsciiLowerCase rt) (issues : List Issue)
    (search : String) :
    (filteredIssues rt issues search).Sublist issues ∧
      (∀ issue : Issue, issue ∈ filteredIssues rt issues search ↔
        issue ∈ issues ∧ caseInsensitiveSubstring rt (trim search) issue.summary) ∧
      (∀ issue : Issue, isAscii search → isAscii issue.summary →
        (issue ∈ filteredIssues rt issues search ↔
          issue ∈ issues ∧ containsIgnoringCase issue.summary (trim search))) := by
  refine ⟨filteredIssues_sublist rt issues search,
    fun issue => filteredIssues_mem rt issues search issue, ?_⟩
  intro issue hsearch hsummary
  rw [filteredIssues_mem,
    containsIgnoringCase_iff rt hrt (trim search) issue.summary (isAscii_trim search hsearch)
      hsummary]

/-- Witness for C3: the term `bug` keeps an issue whose summary is `Fix login Bug`. -/
theorem filteredIssues_spec_witness :
    sampleIssue "1" "APP-0001" "Fix login Bug" (some "backlog") ∈
      filteredIssues sampleRuntime
        [sampleIssue "1" "APP-0001" "Fix login Bug" (some "backlog"),
          sampleIssue "2" "APP-0002" "Write docs" (some "done")] "bug" :=
  ((filteredIssues_spec sampleRuntime (fun _ _ => rfl)
      [sampleIssue "1" "APP-0001" "Fix login Bug" (some "backlog"),
        sampleIssue "2" "APP-0002" "Write docs" (some "done")] "bug").2.2
    (sampleIssue "1" "APP-0001" "Fix login Bug" (some "backlog")) (by decide) (by decide)).2
    ⟨by decide, "Fix login ".data, "Bug".data, [], by decide, by
      unfold sameIgnoringCase
      decide⟩

/-- Counterexample to C3 as stated: the search text ` bug`, with a leading space, keeps
an issue whose summary is `debug`, although no block of `debug` equals ` bug` up to the
case of letters; the filter looks for the trimmed term `bug`. -/
theorem filteredIssues_trims_search :
    AsciiLowerCase sampleRuntime ∧
      filteredIssues sampleRuntime [sampleIssue "1" "APP-0001" "debug" (some "backlog")] " bug" =
        [sampleIssue "1" "APP-0001" "debug" (some "backlog")] ∧
      ¬ containsIgnoringCase (sampleIssue "1" "APP-0001" "debug" (some "backlog")).summary
        " bug" := by
  refine ⟨fun _ _ => rfl, by decide, ?_⟩
  rw [containsIgnoringCase_includes]
  decide

/-- The example of C3: the term `bug` keeps an issue whose summary is `Fix login Bug`. -/
theorem filteredIssues_bug_example :
    filteredIssues sampleRuntime [sampleIssue "1" "APP-0001" "Fix login Bug" (some "backlog"),
        sampleIssue "2" "APP-0002" "Write docs" (some "done")] "bug" =
      [sampleIssue "1" "APP-0001" "Fix login Bug" (some "backlog")] := by
  decide

/-- C4: a search text that is empty or made of white space only leaves the issue list
unchanged. -/
theorem filteredIssues_blank (rt : Runtime) (issues : List Issue) (search : String)
    (h : isBlank search) :
    filteredIssues rt issues search = issues := by
  unfold filteredIssues
  rw [trim_eq_empty search h, rt.toLowerCase_empty]
  simp

/-- Witness for C4: a search of two spaces and a tab keeps both sample issues. -/
theorem filteredIssues_blank_witness :
    filteredIssues sampleRuntime [sampleIssue "1" "APP-0001" "Fix login Bug" (some "backlog"),
        sampleIssue "2" "APP-0002" "Write docs" (some "done")] "  \t" =
      [sampleIssue "1" "APP-0001" "Fix login Bug" (some "backlog"),
        sampleIssue "2" "APP-0002" "Write docs" (some "done")] :=
  filteredIssues_blank sampleRuntime _ "  \t" (by decide)

/-! ### Board columns: claim C5 -/

theorem columnCount_eq (activeTab : String) (filtered : List Issue) (issue : Issue)
    (h : issue ∈ filtered) :
    columnCount activeTab filtered issue =
      ((columnStatuses activeTab).filter (fun s => decide (issue.status = some s))).length := by
  unfold columnCount columns
  rw [List.filter_map, List.length_map]
  congr 1
  apply List.filter_congr
  intro s _
  simp [withStatus, h]

/-- C5 (amended): an issue of the filtered list appears in at most one column of the
active view, and in exactly one if and only if its status is one of the four statuses of
that view. -/
theorem columnCount_spec (activeTab : String) (filtered : List Issue) (issue : Issue)
    (h : issue ∈ filtered) :
    columnCount activeTab filtered issue ≤ 1 ∧
      (columnCount activeTab filtered issue = 1 ↔
        ∃ s ∈ columnStatuses activeTab, issue.status = some s) := by
  rw [columnCount_eq activeTab filtered issue h]
  unfold columnStatuses
  rcases hst : issue.status with _ | t
  · split <;> simp
  · by_cases h1 : t = "backlog"
    · subst h1; split <;> simp
    · by_cases h2 : t = "sprint"
      · subst h2; split <;> simp
      · by_cases h3 : t = "in_progress"
        · subst h3; split <;> simp
        · by_cases h4 : t = "done"
          · subst h4; split <;> simp
          · by_cases h5 : t = "released"
            · subst h5; split <;> simp
            · split <;> simp [h1, h2, h3, h4, h5]

/-- Witness for C5: a done issue is in exactly one column of the sprint board. -/
theorem columnCount_spec_witness :
    columnCount "sprint" [sampleIssue "1" "APP-0001" "Fix login Bug" (some "done")]
        (sampleIssue "1" "APP-0001" "Fix login Bug" (some "done")) ≤ 1 ∧
      (columnCount "sprint" [sampleIssue "1" "APP-0001" "Fix login Bug" (some "done")]
          (sampleIssue "1" "APP-0001" "Fix login Bug" (some "done")) = 1 ↔
        ∃ s ∈ columnStatuses "sprint",
          (sampleIssue "1" "APP-0001" "Fix login Bug" (some "done")).status = some s) :=
  columnCount_spec "sprint" _ _ (by decide)

/-- Counterexample to C5 as stated: on the standard board a released issue of the
filtered list is in no column, and on the sprint board a backlog issue is in none. -/
theorem columnCount_released_on_board :
    sampleIssue "1" "APP-0001" "Ship it" (some "released") ∈
        filteredIssues sampleRuntime [sampleIssue "1" "APP-0001" "Ship it" (some "released")] "" ∧
      columnCount "board"
        (filteredIssues sampleRuntime [sampleIssue "1" "APP-0001" "Ship it" (some "released")] "")
        (sampleIssue "1" "APP-0001" "Ship it" (some "released")) = 0 ∧
      columnCount "sprint" [sampleIssue "2" "APP-0002" "Plan" (some "backlog")]
        (sampleIssue "2" "APP-0002" "Plan" (some "backlog")) = 0 := by
  decide

/-! ### Moving an issue: claim C6 -/

theorem applyPayload_move (status : String) (row : Issue) :
    applyPayload (movePayload status) row = { row with status := some status } := by
  simp [applyPayload, movePayload, writeStr, writeOptStr, writeOptNum, Payload.get]

/-- C6: `moveIssue(id, status)` sends one update whose payload has the field `status` and
no other; when the store holds exactly one row with that id (the move succeeds), that row
becomes itself with the new status, every other row and every other column is as before,
and the local entries with that id are replaced by the updated row. -/
theorem moveIssue_sets_only_status (w : World) (newId createdAt id status : String)
    (row : Issue) (hrow : w.store.rows.filter (fun r => r.id = id) = [row]) :
    (∀ (remote : Remote) (st : PageState),
        (moveIssue remote st id status).2 =
          [Request.update id [("status", JsValue.str status)]]) ∧
      (w.perform newId createdAt (fun remote st => moveIssue remote st id status)).store.rows =
        w.store.rows.map (fun r => if r.id = id then { r with status := some status } else r) ∧
      (w.perform newId createdAt (fun remote st => moveIssue remote st id status)).page =
        { w.page with
          issues := w.page.issues.map
            (fun issue => if issue.id = id then { row with status := some status } else issue) } := by
  refine ⟨?_, ?_, ?_⟩
  · intro remote st
    unfold moveIssue
    cases remote.update id (movePayload status) <;> rfl
  · simp [World.perform, moveIssue, Store.remote, Store.apply, hrow, applyPayload_move]
  · simp [World.perform, moveIssue, Store.remote, hrow, applyPayload_move]

/-- Witness for C6: moving `i1` of the sample world to `done` changes the status of that
row only. -/
theorem moveIssue_sets_only_status_witness :
    (sampleWorld.perform "i3" "t3" (fun remote st => moveIssue remote st "i1" "done")).store.rows =
      sampleWorld.store.rows.map
        (fun r => if r.id = "i1" then { r with status := some "done" } else r) :=
  (moveIssue_sets_only_status sampleWorld "i3" "t3" "i1" "done"
    (sampleIssue "i1" "APP-0001" "Fix login Bug" (some "backlog")) (by decide)).2.1

/-! ### Submitting the form: claims C7 and C8 -/

theorem isBlank_of_trim (s : String) (h : trim s = "") : isBlank s := by
  unfold trim at h
  have h1 : ((s.data.dropWhile isJsWhiteSpace).reverse.dropWhile isJsWhiteSpace).reverse = [] :=
    congrArg String.data h
  rw [List.reverse_eq_nil_iff, List.dropWhile_eq_nil_iff] at h1
  have h2 : s.data.dropWhile isJsWhiteSpace = [] := by
    by_contra hne
    have hhead := List.head_dropWhile_not isJsWhiteSpace s.data hne
    have hmem : (s.data.dropWhile isJsWhiteSpace).head hne ∈
        (s.data.dropWhile isJsWhiteSpace).reverse :=
      List.mem_reverse.2 (List.head_mem hne)
    rw [h1 _ hmem] at hhead
    exact absurd hhead (by simp)
  exact List.dropWhile_eq_nil_iff.1 h2

theorem trim_eq_empty_iff (s : String) : trim s = "" ↔ isBlank s :=
  ⟨isBlank_of_trim s, trim_eq_empty s⟩

theorem missingRequired_iff (st : PageState) :
    missingRequired st = true ↔
      isBlank st.summary ∨ isBlank st.description ∨ isBlank st.acceptanceCriteria ∨
        st.issueType = "" ∨ st.priority = "" := by
  simp only [missingRequired, Bool.or_eq_true, decide_eq_true_eq, trim_eq_empty_iff, or_assoc]

/-- C7: when the summary, the description or the acceptance criteria is empty or white
space only, `onSubmit` sets the page error to the fixed message, sends no request
whatever the store would answer, and leaves the issue list (and the rest of the page)
as it was. -/
theorem onSubmit_rejects_blank (rt : Runtime) (remote : Remote) (st : PageState)
    (h : isBlank st.summary ∨ isBlank st.description ∨ isBlank st.acceptanceCriteria) :
    onSubmit rt remote st = ({ st with error := "Please fill all required fields." }, []) ∧
      (onSubmit rt remote st).1.error = "Please fill all required fields." ∧
      (onSubmit rt remote st).2 = [] ∧
      (onSubmit rt remote st).1.issues = st.issues := by
  have hm : missingRequired { st with error := "" } = true := by
    rw [missingRequired_iff]
    rcases h with h | h | h
    · exact Or.inl h
    · exact Or.inr (Or.inl h)
    · exact Or.inr (Or.inr (Or.inl h))
  have hres : onSubmit rt remote st =
      ({ st with error := "Please fill all required fields." }, []) := by
    unfold onSubmit
    simp only [hm, if_true]
  rw [hres]
  exact ⟨rfl, rfl, rfl, rfl⟩

/-- Witness for C7: the sample form with a summary of spaces is rejected. -/
theorem onSubmit_rejects_blank_witness :
    (onSubmit sampleRuntime (sampleWorld.store.remote "i3" "t3")
        { sampleForm with summary := "   " }).2 = [] :=
  (onSubmit_rejects_blank sampleRuntime (sampleWorld.store.remote "i3" "t3")
    { sampleForm with summary := "   " } (Or.inl (by decide))).2.2.1

theorem nextKeyOf_remote (s : Store) :
    nextKeyOf ((s.rows.take 1).map (fun row => row.issue_key)) =
      getNextIssueKey s.lastKey "APP" := by
  unfold nextKeyOf Store.lastKey
  cases s.rows <;> rfl

theorem newRow_create (rt : Runtime) (st : PageState) (id createdAt key : String) :
    (newRow id createdAt (createPayload rt st key)).issue_key = key ∧
      (newRow id createdAt (createPayload rt st key)).status = some "backlog" := by
  constructor <;>
    simp [newRow, applyPayload, createPayload, formFields, writeStr, writeOptStr, Payload.get]

/-- C8: a valid create submission (required fields not blank, not editing, no submission
in flight) reads the last key and inserts one row whose status is `backlog` and whose
`issue_key` is `getNextIssueKey` of the most recently created issue's key with prefix
`APP`; the created row is added to the store and to the page; on an empty store its key is
`APP-0001`. -/
theorem onSubmit_creates (rt : Runtime) (w : World) (newId createdAt : String)
    (hvalid : ¬ isBlank w.page.summary ∧ ¬ isBlank w.page.description ∧
      ¬ isBlank w.page.acceptanceCriteria ∧ w.page.issueType ≠ "" ∧ w.page.priority ≠ "")
    (hedit : truthyId w.page.editingId = none) (hidle : w.page.isCreating = false) :
    (w.perform newId createdAt (onSubmit rt)).sent =
        w.sent ++ [Request.selectLastKey,
          Request.insert (createPayload rt w.page (getNextIssueKey w.store.lastKey "APP"))] ∧
      (createPayload rt w.page (getNextIssueKey w.store.lastKey "APP")).get "status" =
        some (JsValue.str "backlog") ∧
      (createPayload rt w.page (getNextIssueKey w.store.lastKey "APP")).get "issue_key" =
        some (JsValue.str (getNextIssueKey w.store.lastKey "APP")) ∧
      (w.perform newId createdAt (onSubmit rt)).store.rows =
        newRow newId createdAt (createPayload rt w.page (getNextIssueKey w.store.lastKey "APP"))
          :: w.store.rows ∧
      (w.perform newId createdAt (onSubmit rt)).page.issues =
        newRow newId createdAt (createPayload rt w.page (getNextIssueKey w.store.lastKey "APP"))
          :: w.page.issues ∧
      (newRow newId createdAt
        (createPayload rt w.page (getNextIssueKey w.store.lastKey "APP"))).status =
          some "backlog" ∧
      (newRow newId createdAt
        (createPayload rt w.page (getNextIssueKey w.store.lastKey "APP"))).issue_key =
          getNextIssueKey w.store.lastKey "APP" ∧
      (w.store.rows = [] →
        (newRow newId createdAt
          (createPayload rt w.page (getNextIssueKey w.store.lastKey "APP"))).issue_key =
            "APP-0001") := by
  have hm : missingRequired { w.page with error := "" } = false := by
    rw [← Bool.not_eq_true, missingRequired_iff]
    simp only [not_or]
    exact hvalid
  have hrun : onSubmit rt (w.store.remote newId createdAt) w.page =
      ({ resetForm { w.page with
            error := "",
            issues := newRow newId createdAt
              (createPayload rt w.page (getNextIssueKey w.store.lastKey "APP")) :: w.page.issues }
          with isCreating := false },
        [Request.selectLastKey,
          Request.insert (createPayload rt w.page (getNextIssueKey w.store.lastKey "APP"))]) := by
    unfold onSubmit
    dsimp only
    rw [if_neg (by rw [hm]; simp), if_neg (by rw [hidle]; simp), hedit]
    dsimp only [Store.remote]
    rw [nextKeyOf_remote]
    rfl
  have hrow := newRow_create rt w.page newId createdAt (getNextIssueKey w.store.lastKey "APP")
  refine ⟨?_, ?_, ?_, ?_, ?_, hrow.2, hrow.1, ?_⟩
  · unfold World.perform
    dsimp only
    rw [hrun]
  · simp [createPayload, formFields, Payload.get]
  · simp [createPayload, formFields, Payload.get]
  · unfold World.perform
    dsimp only
    rw [hrun]
    rfl
  · unfold World.perform
    dsimp only
    rw [hrun]
    rfl
  · intro hempty
    rw [hrow.1]
    simp only [Store.lastKey, hempty]
    decide

/-- Witness for C8: the first scenario of the specification, on an empty store. -/
theorem onSubmit_creates_witness :
    (newRow "i1" "t1"
      (createPayload sampleRuntime sampleForm
        (getNextIssueKey ({ page := sampleForm } : World).store.lastKey "APP"))).issue_key =
          "APP-0001" :=
  (onSubmit_creates sampleRuntime { page := sampleForm } "i1" "t1"
    (by decide) (by decide) (by decide)).2.2.2.2.2.2.2 rfl

/-! ### Duplicating an issue: claim C9 -/

theorem newRow_copy (issue : Issue) (id createdAt key : String) :
    (newRow id createdAt (copyPayload issue key)).issue_key = key ∧
      (newRow id createdAt (copyPayload issue key)).status =
        some (issue.status.getD "backlog") := by
  constructor <;>
    simp [newRow, applyPayload, copyPayload, writeStr, writeOptStr, Payload.get]

/-- C9 (amended): a confirmed `copyIssue(issue)` inserts one row, added to the store and
to the page, whose status is the status of the source issue, and `backlog` when the
source issue has no status. -/
theorem copyIssue_keeps_status (w : World) (newId createdAt : String) (issue : Issue) :
    (w.perform newId createdAt (fun remote st => copyIssue remote st true issue)).store.rows =
        newRow newId createdAt (copyPayload issue (getNextIssueKey w.store.lastKey "APP"))
          :: w.store.rows ∧
      (w.perform newId createdAt (fun remote st => copyIssue remote st true issue)).page.issues =
        newRow newId createdAt (copyPayload issue (getNextIssueKey w.store.lastKey "APP"))
          :: w.page.issues ∧
      (copyPayload issue (getNextIssueKey w.store.lastKey "APP")).get "status" =
        some (JsValue.str (issue.status.getD "backlog")) ∧
      (∀ s : String, issue.status = some s →
        (newRow newId createdAt
          (copyPayload issue (getNextIssueKey w.store.lastKey "APP"))).status = some s) ∧
      (issue.status = none →
        (newRow newId createdAt
          (copyPayload issue (getNextIssueKey w.store.lastKey "APP"))).status =
            some "backlog") := by
  have hrow := newRow_copy issue newId createdAt (getNextIssueKey w.store.lastKey "APP")
  have hrun : copyIssue (w.store.remote newId createdAt) w.page true issue =
      ({ w.page with
          issues := newRow newId createdAt
            (copyPayload issue (getNextIssueKey w.store.lastKey "APP")) :: w.page.issues },
        [Request.selectLastKey,
          Request.insert (copyPayload issue (getNextIssueKey w.store.lastKey "APP"))]) := by
    unfold copyIssue
    dsimp only [Store.remote]
    rw [nextKeyOf_remote]
    rfl
  refine ⟨?_, ?_, ?_, ?_, ?_⟩
  · unfold World.perform
    dsimp only
    rw [hrun]
    rfl
  · unfold World.perform
    dsimp only
    rw [hrun]
  · simp [copyPayload, Payload.get]
  · intro s hs; rw [hrow.2, hs]; rfl
  · intro hs; rw [hrow.2, hs]; rfl

/-- Counterexample to C9 as stated: duplicating the done issue of the sample world
creates a row whose status is `done`, not `backlog`. -/
theorem copyIssue_of_done_is_done :
    (sampleIssue "i2" "APP-0002" "Write docs" (some "done")).status = some "done" ∧
      ((sampleWorld.perform "i3" "t3" (fun remote st =>
          copyIssue remote st true
            (sampleIssue "i2" "APP-0002" "Write docs" (some "done")))).store.rows.map
        (fun row => (row.id, row.issue_key, row.status))) =
        [("i3", "APP-0003", some "done"), ("i2", "APP-0002", some "done"),
          ("i1", "APP-0001", some "backlog")] ∧
      ((sampleWorld.perform "i3" "t3" (fun remote st =>
          copyIssue remote st true
            (sampleIssue "i2" "APP-0002" "Write docs" (some "done")))).store.rows.head?.map
        (fun row => row.status)) ≠ some (some "backlog") := by
  decide

/-! ### Decimal digits -/

theorem digitsValue_foldl (ds : List Char) : ∀ acc : Nat,
    ds.foldl (fun acc c => acc * 10 + (c.toNat - 48)) acc =
      acc * 10 ^ ds.length + digitsValue ds := by
  unfold digitsValue
  induction ds with
  | nil => intro acc; simp
  | cons c ds ih =>
    intro acc
    simp only [List.foldl_cons, List.length_cons]
    rw [ih (acc * 10 + (c.toNat - 48)), ih (0 * 10 + (c.toNat - 48))]
    ring

theorem digitsValue_cons (c : Char) (ds : List Char) :
    digitsValue (c :: ds) = (c.toNat - 48) * 10 ^ ds.length + digitsValue ds := by
  have h := digitsValue_foldl ds (0 * 10 + (c.toNat - 48))
  simp only [Nat.zero_mul, Nat.zero_add] at h
  unfold digitsValue at h ⊢
  simpa using h

theorem digitChar_value (d : Nat) (h : d < 10) :
    (Nat.digitChar d).toNat - 48 = d ∧ (Nat.digitChar d).isDigit = true := by
  interval_cases d <;> decide

theorem toDigitsCore_value (fuel : Nat) : ∀ (n : Nat) (ds : List Char), n < fuel →
    digitsValue (Nat.toDigitsCore 10 fuel n ds) = n * 10 ^ ds.length + digitsValue ds := by
  induction fuel with
  | zero => intro n ds h; omega
  | succ f ih =>
    intro n ds h
    unfold Nat.toDigitsCore
    dsimp only
    have hd := (digitChar_value (n % 10) (Nat.mod_lt n (by decide))).1
    by_cases h0 : n / 10 = 0
    · rw [if_pos h0, digitsValue_cons, hd]
      have : n % 10 = n := by omega
      rw [this]
    · rw [if_neg h0, ih (n / 10) _ (by omega), digitsValue_cons, hd, List.length_cons, pow_succ]
      have hdm := Nat.div_add_mod n 10
      have hsplit : n / 10 * (10 ^ ds.length * 10) + n % 10 * 10 ^ ds.length =
          (10 * (n / 10) + n % 10) * 10 ^ ds.length := by ring
      rw [← Nat.add_assoc, hsplit, hdm]

theorem toDigitsCore_isDigit (fuel : Nat) : ∀ (n : Nat) (ds : List Char),
    (∀ c ∈ ds, c.isDigit = true) →
      ∀ c ∈ Nat.toDigitsCore 10 fuel n ds, c.isDigit = true := by
  induction fuel with
  | zero => intro n ds h; simpa [Nat.toDigitsCore] using h
  | succ f ih =>
    intro n ds h
    unfold Nat.toDigitsCore
    dsimp only
    have hd := (digitChar_value (n % 10) (Nat.mod_lt n (by decide))).2
    have hcons : ∀ c ∈ Nat.digitChar (n % 10) :: ds, c.isDigit = true := by
      intro c hc
      rcases List.mem_cons.1 hc with hc | hc
      · rw [hc]; exact hd
      · exact h c hc
    by_cases h0 : n / 10 = 0
    · rw [if_pos h0]; exact hcons
    · rw [if_neg h0]; exact ih (n / 10) _ hcons

theorem toDigitsCore_ne_nil (fuel n : Nat) (ds : List Char) (h : 0 < fuel) :
    Nat.toDigitsCore 10 fuel n ds ≠ [] := by
  intro hc
  have hl := congrArg List.length hc
  obtain ⟨f, rfl⟩ : ∃ f, fuel = f + 1 := ⟨fuel - 1, by omega⟩
  have := Nat.toDigitsCore_lens_eq 10 f (n / 10) (Nat.digitChar (n % 10)) ds
  unfold Nat.toDigitsCore at hl
  dsimp only at hl
  by_cases h0 : n / 10 = 0
  · rw [if_pos h0] at hl; simp at hl
  · rw [if_neg h0, this] at hl; simp at hl

theorem digitsValue_toDigits (n : Nat) : digitsValue (Nat.toDigits 10 n) = n := by
  unfold Nat.toDigits
  rw [toDigitsCore_value (n + 1) n [] (by omega)]
  simp [digitsValue]

theorem digitsValue_padStart (ds : List Char) (k : Nat) :
    digitsValue (padStart ds k '0') = digitsValue ds := by
  unfold padStart
  induction (k - ds.length) with
  | zero => simp
  | succ m ih =>
    rw [List.replicate_succ, List.cons_append, digitsValue_cons, ih]
    simp

theorem padStart_isDigit (ds : List Char) (k : Nat) (h : ∀ c ∈ ds, c.isDigit = true) :
    ∀ c ∈ padStart ds k '0', c.isDigit = true := by
  intro c hc
  unfold padStart at hc
  rcases List.mem_append.1 hc with hc | hc
  · rw [(List.mem_replicate.1 hc).2]; decide
  · exact h c hc

theorem keyOf_injective (a b : Nat) (h : keyOf a = keyOf b) : a = b := by
  unfold keyOf at h
  have h1 := congrArg String.data h
  simp only [List.append_cancel_left_eq, List.cons.injEq, true_and] at h1
  have h2 := congrArg digitsValue h1
  rwa [digitsValue_padStart, digitsValue_padStart, digitsValue_toDigits,
    digitsValue_toDigits] at h2

theorem getNextIssueKey_keyOf (n : Nat) (hn : n < 9007199254740992) :
    getNextIssueKey (keyOf n) "APP" = keyOf (n + 1) := by
  have hdig : ∀ c ∈ padStart (Nat.toDigits 10 n) 4 '0', c.isDigit = true :=
    padStart_isDigit _ 4 (toDigitsCore_isDigit (n + 1) n [] (by simp))
  have hne : padStart (Nat.toDigits 10 n) 4 '0' ≠ [] := by
    unfold padStart
    intro hc
    exact toDigitsCore_ne_nil (n + 1) n [] (by omega) (List.append_eq_nil.1 hc).2
  have hval : digitsValue (padStart (Nat.toDigits 10 n) 4 '0') = n := by
    rw [digitsValue_padStart, digitsValue_toDigits]
  have h := getNextIssueKey_of_match "APP".data _ hne hdig (by rw [hval]; exact hn)
  rw [hval] at h
  exact h

/-! ### Runs: claim C10 -/

theorem assignedKeys_append (xs ys : List Request) :
    assignedKeys (xs ++ ys) = assignedKeys xs ++ assignedKeys ys := by
  induction xs with
  | nil => rfl
  | cons x xs ih =>
    cases x <;> simp [assignedKeys, ih]

theorem perform_create (rt : Runtime) (w : World) (newId createdAt : String)
    (hm : missingRequired w.page = false) (hedit : truthyId w.page.editingId = none)
    (hidle : w.page.isCreating = false) :
    w.perform newId createdAt (onSubmit rt) =
      { page :=
          { resetForm { w.page with
              error := "",
              issues := newRow newId createdAt
                (createPayload rt w.page (getNextIssueKey w.store.lastKey "APP")) ::
                  w.page.issues }
            with isCreating := false }
        store :=
          { rows := newRow newId createdAt
              (createPayload rt w.page (getNextIssueKey w.store.lastKey "APP")) :: w.store.rows }
        sent := w.sent ++ [Request.selectLastKey,
          Request.insert (createPayload rt w.page (getNextIssueKey w.store.lastKey "APP"))] } := by
  have hm1 : missingRequired { w.page with error := "" } = false := hm
  have hrun : onSubmit rt (w.store.remote newId createdAt) w.page =
      ({ resetForm { w.page with
            error := "",
            issues := newRow newId createdAt
              (createPayload rt w.page (getNextIssueKey w.store.lastKey "APP")) :: w.page.issues }
          with isCreating := false },
        [Request.selectLastKey,
          Request.insert (createPayload rt w.page (getNextIssueKey w.store.lastKey "APP"))]) := by
    unfold onSubmit
    dsimp only
    rw [if_neg (by rw [hm1]; simp), if_neg (by rw [hidle]; simp), hedit]
    dsimp only [Store.remote]
    rw [nextKeyOf_remote]
    rfl
  unfold World.perform
  dsimp only
  rw [hrun]
  rfl

theorem perform_rejected (rt : Runtime) (w : World) (newId createdAt : String)
    (hm : missingRequired w.page = true) :
    w.perform newId createdAt (onSubmit rt) =
      { w with page := { w.page with error := "Please fill all required fields." } } := by
  have hm1 : missingRequired { w.page with error := "" } = true := hm
  have hrun : onSubmit rt (w.store.remote newId createdAt) w.page =
      ({ w.page with error := "Please fill all required fields." }, []) := by
    unfold onSubmit
    simp only [hm1, if_true]
  unfold World.perform
  dsimp only
  rw [hrun]
  simp

theorem perform_copy (w : World) (newId createdAt : String) (issue : Issue) :
    w.perform newId createdAt (fun remote st => copyIssue remote st true issue) =
      { page :=
          { w.page with
            issues := newRow newId createdAt
              (copyPayload issue (getNextIssueKey w.store.lastKey "APP")) :: w.page.issues }
        store :=
          { rows := newRow newId createdAt
              (copyPayload issue (getNextIssueKey w.store.lastKey "APP")) :: w.store.rows }
        sent := w.sent ++ [Request.selectLastKey,
          Request.insert (copyPayload issue (getNextIssueKey w.store.lastKey "APP"))] } := by
  have hrun : copyIssue (w.store.remote newId createdAt) w.page true issue =
      ({ w.page with
          issues := newRow newId createdAt
            (copyPayload issue (getNextIssueKey w.store.lastKey "APP")) :: w.page.issues },
        [Request.selectLastKey,
          Request.insert (copyPayload issue (getNextIssueKey w.store.lastKey "APP"))]) := by
    unfold copyIssue
    dsimp only [Store.remote]
    rw [nextKeyOf_remote]
    rfl
  unfold World.perform
  dsimp only
  rw [hrun]
  rfl

theorem perform_delete (w : World) (id : String) :
    w.perform "" "" (fun remote st => deleteIssue remote st true id) =
      { page :=
          if w.page.editingId = some id then
            resetForm { w.page with issues := w.page.issues.filter (fun issue => issue.id ≠ id) }
          else { w.page with issues := w.page.issues.filter (fun issue => issue.id ≠ id) }
        store := { rows := w.store.rows.filter (fun row => row.id ≠ id) }
        sent := w.sent ++ [Request.delete id] } := by
  rfl

theorem lastKey_of_invariant (n : Nat) (w : World) (h : RunInvariant n w)
    (hn : n < 9007199254740992) :
    getNextIssueKey w.store.lastKey "APP" = keyOf (n + 1) := by
  rcases h.2.2.2 with ⟨h0, hrows⟩ | ⟨_, row, rest, hrows, hkey⟩
  · subst h0
    simp only [Store.lastKey, hrows]
    decide
  · have hl : w.store.lastKey = keyOf n := by
      simp only [Store.lastKey, hrows, List.head?_cons, Option.map_some', Option.getD_some, hkey]
    rw [hl, getNextIssueKey_keyOf n hn]

theorem range_keys_succ (n : Nat) :
    (List.range (n + 1)).map (fun k => keyOf (k + 1)) =
      (List.range n).map (fun k => keyOf (k + 1)) ++ [keyOf (n + 1)] := by
  rw [List.range_succ, List.map_append]
  rfl

theorem invariant_congr (n : Nat) (w v : World)
    (h1 : v.page.isCreating = w.page.isCreating) (h2 : v.page.editingId = w.page.editingId)
    (h3 : v.sent = w.sent) (h4 : v.store = w.store) (h : RunInvariant n w) :
    RunInvariant n v := by
  unfold RunInvariant at h ⊢
  rw [h1, h2, h3, h4]
  exact h

theorem invariant_after_insert (n : Nat) (w : World) (page : PageState) (row : Issue)
    (p : Payload) (h : RunInvariant n w) (hn : n < 9007199254740992)
    (hidle : page.isCreating = false) (hedit : truthyId page.editingId = none)
    (hp : writeStr p "issue_key" "" = getNextIssueKey w.store.lastKey "APP")
    (hrow : row.issue_key = getNextIssueKey w.store.lastKey "APP") :
    RunInvariant (n + 1)
      { page := page
        store := { rows := row :: w.store.rows }
        sent := w.sent ++ [Request.selectLastKey, Request.insert p] } := by
  have hkey := lastKey_of_invariant n w h hn
  refine ⟨hidle, hedit, ?_, Or.inr ⟨by omega, row, w.store.rows, rfl, by rw [hrow, hkey]⟩⟩
  show assignedKeys (w.sent ++ [Request.selectLastKey, Request.insert p]) = _
  rw [assignedKeys_append, h.2.2.1, range_keys_succ]
  simp only [assignedKeys, hp, hkey]

theorem step_create (rt : Runtime) (n : Nat) (w : World) (form : FormInput)
    (newId createdAt : String) (h : RunInvariant n w) (hn : n < 9007199254740992) :
    RunInvariant n (step rt w (UserAction.create form newId createdAt)) ∨
      RunInvariant (n + 1) (step rt w (UserAction.create form newId createdAt)) := by
  have hstep : step rt w (UserAction.create form newId createdAt) =
      World.perform { w with page := fillForm w.page form } newId createdAt (onSubmit rt) := rfl
  have h1 : RunInvariant n { w with page := fillForm w.page form } :=
    invariant_congr n w { w with page := fillForm w.page form } rfl rfl rfl rfl h
  rw [hstep]
  generalize hw1 : ({ w with page := fillForm w.page form } : World) = w1 at h1 ⊢
  by_cases hm : missingRequired w1.page = true
  · left
    rw [perform_rejected rt w1 newId createdAt hm]
    exact invariant_congr n w1 _ rfl rfl rfl rfl h1
  · right
    have hm0 : missingRequired w1.page = false := by simpa using hm
    rw [perform_create rt w1 newId createdAt hm0 h1.2.1 h1.1]
    have hp : writeStr (createPayload rt w1.page (getNextIssueKey w1.store.lastKey "APP"))
        "issue_key" "" = getNextIssueKey w1.store.lastKey "APP" := by
      simp [createPayload, writeStr, Payload.get]
    exact invariant_after_insert n w1 _ _ _ h1 hn rfl rfl hp
      (newRow_create rt w1.page newId createdAt _).1

theorem step_duplicate (rt : Runtime) (n : Nat) (w : World) (issue : Issue)
    (newId createdAt : String) (h : RunInvariant n w) (hn : n < 9007199254740992) :
    RunInvariant (n + 1) (step rt w (UserAction.duplicate issue newId createdAt)) := by
  have hstep : step rt w (UserAction.duplicate issue newId createdAt) =
      w.perform newId createdAt (fun remote st => copyIssue remote st true issue) := rfl
  rw [hstep, perform_copy w newId createdAt issue]
  have hp : writeStr (copyPayload issue (getNextIssueKey w.store.lastKey "APP"))
      "issue_key" "" = getNextIssueKey w.store.lastKey "APP" := by
    simp [copyPayload, writeStr, Payload.get]
  exact invariant_after_insert n w _ _ _ h hn h.1 h.2.1 hp
    (newRow_copy issue newId createdAt _).1

theorem step_delete (rt : Runtime) (n : Nat) (w : World) (id : String)
    (h : RunInvariant n w) (hd : deletesNewest w (UserAction.delete id) = false) :
    RunInvariant n (step rt w (UserAction.delete id)) := by
  have hstep : step rt w (UserAction.delete id) =
      w.perform "" "" (fun remote st => deleteIssue remote st true id) := rfl
  rw [hstep, perform_delete w id]
  refine ⟨?_, ?_, ?_, ?_⟩
  · show (if w.page.editingId = some id then _ else _ : PageState).isCreating = false
    split <;> exact h.1
  · show truthyId (if w.page.editingId = some id then _ else _ : PageState).editingId = none
    split
    · rfl
    · exact h.2.1
  · show assignedKeys (w.sent ++ [Request.delete id]) = _
    rw [assignedKeys_append, h.2.2.1]
    simp [assignedKeys]
  · rcases h.2.2.2 with ⟨h0, hrows⟩ | ⟨hpos, row, rest, hrows, hkey⟩
    · left
      refine ⟨h0, ?_⟩
      show List.filter _ w.store.rows = []
      rw [hrows]
      rfl
    · right
      have hne : row.id ≠ id := by
        simpa [deletesNewest, hrows] using hd
      refine ⟨hpos, row, rest.filter (fun r => r.id ≠ id), ?_, hkey⟩
      show List.filter _ w.store.rows = _
      rw [hrows, List.filter_cons_of_pos (by simpa using hne)]

theorem step_invariant (rt : Runtime) (n : Nat) (w : World) (a : UserAction)
    (h : RunInvariant n w) (hn : n < 9007199254740992) (hd : deletesNewest w a = false) :
    RunInvariant n (step rt w a) ∨ RunInvariant (n + 1) (step rt w a) := by
  cases a with
  | create form newId createdAt => exact step_create rt n w form newId createdAt h hn
  | duplicate issue newId createdAt =>
    exact Or.inr (step_duplicate rt n w issue newId createdAt h hn)
  | delete id => exact Or.inl (step_delete rt n w id h hd)

theorem run_invariant (rt : Runtime) (actions : List UserAction) :
    ∀ (n : Nat) (w : World), RunInvariant n w → n + actions.length ≤ 9007199254740992 →
      sparesNewest rt w actions = true →
      ∃ m, RunInvariant m (actions.foldl (step rt) w) := by
  induction actions with
  | nil => intro n w h _ _; exact ⟨n, h⟩
  | cons a rest ih =>
    intro n w h hlen hsp
    simp only [List.length_cons] at hlen
    simp only [sparesNewest, Bool.and_eq_true, Bool.not_eq_true'] at hsp
    rcases step_invariant rt n w a h (by omega) hsp.1 with h1 | h1
    · exact ih n _ h1 (by omega) hsp.2
    · exact ih (n + 1) _ h1 (by omega) hsp.2

/-- C10 (amended): in a run of create, duplicate and delete actions of a single client
from an empty store in which no delete removes the issue that is the most recently
created one of the store at that moment, and which has fewer than `2^53` actions, no key
is assigned to two issues. -/
theorem assignedKeys_nodup (rt : Runtime) (actions : List UserAction)
    (hspare : sparesNewest rt {} actions = true) (hlen : actions.length < 2 ^ 53) :
    (assignedKeys (run rt actions).sent).Nodup := by
  have h0 : RunInvariant 0 ({} : World) := ⟨rfl, rfl, rfl, Or.inl ⟨rfl, rfl⟩⟩
  have h53 : (2 : Nat) ^ 53 = 9007199254740992 := by norm_num
  obtain ⟨m, hm⟩ := run_invariant rt actions 0 {} h0 (by omega) hspare
  unfold run
  rw [hm.2.2.1]
  refine List.Nodup.map ?_ (List.nodup_range m)
  intro a b hab
  have := keyOf_injective _ _ hab
  omega

/-- Witness for C10: two creates, a duplicate, and a delete of the oldest issue assign
three different keys. -/
theorem assignedKeys_nodup_witness :
    (assignedKeys (run sampleRuntime
      [UserAction.create { summary := "a", description := "b", acceptanceCriteria := "c" } "i1" "t1",
        UserAction.create { summary := "d", description := "e", acceptanceCriteria := "f" } "i2" "t2",
        UserAction.delete "i1",
        UserAction.duplicate (sampleIssue "i2" "APP-0002" "d" (some "backlog")) "i3" "t3"]).sent).Nodup :=
  assignedKeys_nodup sampleRuntime _ (by decide) (by decide)

/-- Counterexample to C10 as stated: create, delete that issue, create again gives the
key `APP-0001` to both issues; with another issue still stored, create, create, delete
the second, create gives `APP-0002` twice. -/
theorem assignedKeys_reused_after_delete :
    assignedKeys (run sampleRuntime
      [UserAction.create { summary := "a", description := "b", acceptanceCriteria := "c" } "i1" "t1",
        UserAction.delete "i1",
        UserAction.create { summary := "d", description := "e", acceptanceCriteria := "f" } "i2" "t2"]).sent =
        ["APP-0001", "APP-0001"] ∧
      assignedKeys (run sampleRuntime
        [UserAction.create { summary := "a", description := "b", acceptanceCriteria := "c" } "i1" "t1",
          UserAction.create { summary := "d", description := "e", acceptanceCriteria := "f" } "i2" "t2",
          UserAction.delete "i2",
          UserAction.create { summary := "g", description := "h", acceptanceCriteria := "i" } "i3" "t3"]).sent =
        ["APP-0001", "APP-0002", "APP-0002"] := by
  constructor <;> decide

/-! ### Remote failures: claim C12 -/

theorem onSubmit_edit_result (rt : Runtime) (remote : Remote) (st : PageState) (id : String)
    (hm : missingRequired st = false) (hidle : st.isCreating = false)
    (hedit : truthyId st.editingId = some id) :
    onSubmit rt remote st =
      match remote.update id (editPayload rt st) with
      | Except.error message =>
        ({ st with error := message, isCreating := false },
          [Request.update id (editPayload rt st)])
      | Except.ok updated =>
        ({ resetForm { st with
              error := "",
              issues := st.issues.map (fun issue => if issue.id = id then updated else issue) }
            with isCreating := false },
          [Request.update id (editPayload rt st)]) := by
  have hm1 : missingRequired { st with error := "" } = false := hm
  unfold onSubmit
  dsimp only
  have he : editPayload rt { st with error := "" } = editPayload rt st := rfl
  rw [if_neg (by rw [hm1]; simp), if_neg (by rw [hidle]; simp), hedit]
  dsimp only
  rw [he]

theorem onSubmit_create_result (rt : Runtime) (remote : Remote) (st : PageState)
    (hm : missingRequired st = false) (hidle : st.isCreating = false)
    (hedit : truthyId st.editingId = none) :
    onSubmit rt remote st =
      match remote.selectLastKey with
      | Except.error message =>
        ({ st with error := message, isCreating := false }, [Request.selectLastKey])
      | Except.ok data =>
        match remote.insert (createPayload rt st (nextKeyOf data)) with
        | Except.error message =>
          ({ st with error := message, isCreating := false },
            [Request.selectLastKey, Request.insert (createPayload rt st (nextKeyOf data))])
        | Except.ok created =>
          ({ resetForm { st with error := "", issues := created :: st.issues }
              with isCreating := false },
            [Request.selectLastKey, Request.insert (createPayload rt st (nextKeyOf data))]) := by
  have hm1 : missingRequired { st with error := "" } = false := hm
  unfold onSubmit
  dsimp only
  rw [if_neg (by rw [hm1]; simp), if_neg (by rw [hidle]; simp), hedit]
  dsimp only
  cases remote.selectLastKey with
  | error message => rfl
  | ok data =>
    dsimp only
    have hc : createPayload rt { st with error := "" } (nextKeyOf data) =
        createPayload rt st (nextKeyOf data) := rfl
    rw [hc]

/-- C12: when a remote operation of create, edit, move, delete or duplicate answers with
an error, the local issue list is what it was before the action and the page error is the
error message of the store. -/
theorem remote_error_keeps_issues (rt : Runtime) (remote : Remote) (st : PageState)
    (message : String) :
    (missingRequired st = false → st.isCreating = false → truthyId st.editingId = none →
      remote.selectLastKey = Except.error message →
      (onSubmit rt remote st).1.issues = st.issues ∧
        (onSubmit rt remote st).1.error = message) ∧
    (∀ data : List String, missingRequired st = false → st.isCreating = false →
      truthyId st.editingId = none → remote.selectLastKey = Except.ok data →
      remote.insert (createPayload rt st (nextKeyOf data)) = Except.error message →
      (onSubmit rt remote st).1.issues = st.issues ∧
        (onSubmit rt remote st).1.error = message) ∧
    (∀ id : String, missingRequired st = false → st.isCreating = false →
      truthyId st.editingId = some id →
      remote.update id (editPayload rt st) = Except.error message →
      (onSubmit rt remote st).1.issues = st.issues ∧
        (onSubmit rt remote st).1.error = message) ∧
    (∀ id status : String, remote.update id (movePayload status) = Except.error message →
      (moveIssue remote st id status).1.issues = st.issues ∧
        (moveIssue remote st id status).1.error = message) ∧
    (∀ id : String, remote.delete id = Except.error message →
      (deleteIssue remote st true id).1.issues = st.issues ∧
        (deleteIssue remote st true id).1.error = message) ∧
    (∀ issue : Issue, remote.selectLastKey = Except.error message →
      (copyIssue remote st true issue).1.issues = st.issues ∧
        (copyIssue remote st true issue).1.error = message) ∧
    (∀ (issue : Issue) (data : List String), remote.selectLastKey = Except.ok data →
      remote.insert (copyPayload issue (nextKeyOf data)) = Except.error message →
      (copyIssue remote st true issue).1.issues = st.issues ∧
        (copyIssue remote st true issue).1.error = message) := by
  refine ⟨?_, ?_, ?_, ?_, ?_, ?_, ?_⟩
  · intro hm hidle hedit hsel
    rw [onSubmit_create_result rt remote st hm hidle hedit, hsel]
    exact ⟨rfl, rfl⟩
  · intro data hm hidle hedit hsel hins
    rw [onSubmit_create_result rt remote st hm hidle hedit, hsel]
    dsimp only
    rw [hins]
    exact ⟨rfl, rfl⟩
  · intro id hm hidle hedit hupd
    rw [onSubmit_edit_result rt remote st id hm hidle hedit, hupd]
    exact ⟨rfl, rfl⟩
  · intro id status hupd
    unfold moveIssue
    rw [hupd]
    exact ⟨rfl, rfl⟩
  · intro id hdel
    unfold deleteIssue
    rw [hdel]
    exact ⟨rfl, rfl⟩
  · intro issue hsel
    unfold copyIssue
    rw [hsel]
    exact ⟨rfl, rfl⟩
  · intro issue data hsel hins
    unfold copyIssue
    rw [hsel]
    dsimp only
    rw [hins]
    exact ⟨rfl, rfl⟩

/-- Witness for C12: a move against an unreachable store keeps the issue list and shows
the message. -/
theorem remote_error_keeps_issues_witness :
    (moveIssue (failingRemote "network down") sampleWorld.page "i1" "done").1.issues =
        sampleWorld.page.issues ∧
      (moveIssue (failingRemote "network down") sampleWorld.page "i1" "done").1.error =
        "network down" :=
  (remote_error_keeps_issues sampleRuntime (failingRemote "network down") sampleWorld.page
    "network down").2.2.2.1 "i1" "done" rfl

/-! ### Reconciliation: claim C16 -/

/-- C16: after a successful move or edit of the issue with id `id`, the local issue list
is the old list with exactly the entries whose id is `id` replaced by the row `data` that
the store returned: same length, same order, every other entry unchanged. -/
theorem reconcile_replaces_by_id (rt : Runtime) (remote : Remote) (st : PageState)
    (id : String) (data : Issue) :
    (∀ status : String, remote.update id (movePayload status) = Except.ok data →
      (moveIssue remote st id status).1.issues =
          st.issues.map (fun issue => if issue.id = id then data else issue) ∧
        (moveIssue remote st id status).1.issues.length = st.issues.length ∧
        ∀ k : Nat, (moveIssue remote st id status).1.issues[k]? =
          (st.issues[k]?).map (fun issue => if issue.id = id then data else issue)) ∧
    (missingRequired st = false → st.isCreating = false → truthyId st.editingId = some id →
      remote.update id (editPayload rt st) = Except.ok data →
      (onSubmit rt remote st).1.issues =
          st.issues.map (fun issue => if issue.id = id then data else issue) ∧
        (onSubmit rt remote st).1.issues.length = st.issues.length ∧
        ∀ k : Nat, (onSubmit rt remote st).1.issues[k]? =
          (st.issues[k]?).map (fun issue => if issue.id = id then data else issue)) := by
  constructor
  · intro status hupd
    have hres : (moveIssue remote st id status).1.issues =
        st.issues.map (fun issue => if issue.id = id then data else issue) := by
      unfold moveIssue
      rw [hupd]
    rw [hres]
    exact ⟨rfl, List.length_map _ _, fun k => List.getElem?_map _ _ _⟩
  · intro hm hidle hedit hupd
    have hres : (onSubmit rt remote st).1.issues =
        st.issues.map (fun issue => if issue.id = id then data else issue) := by
      rw [onSubmit_edit_result rt remote st id hm hidle hedit, hupd]
      rfl
    rw [hres]
    exact ⟨rfl, List.length_map _ _, fun k => List.getElem?_map _ _ _⟩

/-- Witness for C16: moving `i1` of the sample world replaces its entry and keeps the
other one. -/
theorem reconcile_replaces_by_id_witness :
    (moveIssue (sampleWorld.store.remote "" "") sampleWorld.page "i1" "done").1.issues =
      sampleWorld.page.issues.map (fun issue =>
        if issue.id = "i1" then sampleIssue "i1" "APP-0001" "Fix login Bug" (some "done")
        else issue) :=
  ((reconcile_replaces_by_id sampleRuntime (sampleWorld.store.remote "" "") sampleWorld.page
    "i1" (sampleIssue "i1" "APP-0001" "Fix login Bug" (some "done"))).1 "done" rfl).1

/-! ### Moves, drops and edits against the store: claims C13, C14 and C15 -/

theorem filter_map_same_id (l : List Issue) (id : String) (f : Issue → Issue)
    (hf : ∀ r : Issue, (f r).id = r.id) :
    (l.map (fun r => if r.id = id then f r else r)).filter (fun r => r.id = id) =
      (l.filter (fun r => r.id = id)).map f := by
  induction l with
  | nil => rfl
  | cons r l ih =>
    by_cases h : r.id = id
    · simp [h, hf, ih]
    · simp [h, ih]

theorem filter_map_replace (l : List Issue) (id : String) (d : Issue) (hd : d.id = id) :
    (l.map (fun r => if r.id = id then d else r)).filter (fun r => r.id = id) =
      (l.filter (fun r => r.id = id)).map (fun _ => d) := by
  induction l with
  | nil => rfl
  | cons r l ih =>
    by_cases h : r.id = id
    · simp [h, hd, ih]
    · simp [h, ih]

theorem id_of_filter (l : List Issue) (id : String) (row : Issue)
    (h : l.filter (fun r => r.id = id) = [row]) : row.id = id := by
  have hmem : row ∈ l.filter (fun r => r.id = id) := by rw [h]; simp
  simpa using (List.mem_filter.1 hmem).2

theorem perform_move (w : World) (id status : String) (row : Issue)
    (hrow : w.store.rows.filter (fun r => r.id = id) = [row]) :
    w.perform "" "" (fun remote st => moveIssue remote st id status) =
      { page :=
          { w.page with
            issues := w.page.issues.map
              (fun issue => if issue.id = id then { row with status := some status } else issue) }
        store :=
          { rows := w.store.rows.map
              (fun r => if r.id = id then { r with status := some status } else r) }
        sent := w.sent ++ [Request.update id (movePayload status)] } := by
  simp [World.perform, moveIssue, Store.remote, Store.apply, hrow, applyPayload_move]

theorem perform_edit (rt : Runtime) (w : World) (newId createdAt id : String) (row : Issue)
    (hm : missingRequired w.page = false) (hidle : w.page.isCreating = false)
    (hedit : truthyId w.page.editingId = some id)
    (hrow : w.store.rows.filter (fun r => r.id = id) = [row]) :
    w.perform newId createdAt (onSubmit rt) =
      { page :=
          { resetForm { w.page with
              error := "",
              issues := w.page.issues.map (fun issue =>
                if issue.id = id then applyPayload (editPayload rt w.page) row else issue) }
            with isCreating := false }
        store :=
          { rows := w.store.rows.map
              (fun r => if r.id = id then applyPayload (editPayload rt w.page) r else r) }
        sent := w.sent ++ [Request.update id (editPayload rt w.page)] } := by
  have hupd : (w.store.remote newId createdAt).update id (editPayload rt w.page) =
      Except.ok (applyPayload (editPayload rt w.page) row) := by
    simp [Store.remote, hrow]
  have hrun := onSubmit_edit_result rt (w.store.remote newId createdAt) w.page id hm hidle hedit
  rw [hupd] at hrun
  unfold World.perform
  dsimp only
  rw [hrun]
  simp [Store.apply, hrow]

/-- C15: a valid edit submission (required fields present, no submission in flight, the
form editing the issue with id `id`) sends one update whose payload has the nine form
fields and none of `id`, `issue_key` and `created_at`; when the store holds exactly one
row with that id, the row after the update has the same id, key and creation time. -/
theorem onSubmit_edit_keeps_identity (rt : Runtime) (w : World) (newId createdAt id : String)
    (row : Issue) (hm : missingRequired w.page = false) (hidle : w.page.isCreating = false)
    (hedit : truthyId w.page.editingId = some id)
    (hrow : w.store.rows.filter (fun r => r.id = id) = [row]) :
    (w.perform newId createdAt (onSubmit rt)).sent =
        w.sent ++ [Request.update id (editPayload rt w.page)] ∧
      (editPayload rt w.page).map (fun kv => kv.1) =
        ["summary", "description", "acceptance_criteria", "issue_type", "priority",
          "story_points", "start_date", "due_date", "sprint"] ∧
      (editPayload rt w.page).get "id" = none ∧
      (editPayload rt w.page).get "issue_key" = none ∧
      (editPayload rt w.page).get "created_at" = none ∧
      (w.perform newId createdAt (onSubmit rt)).store.rows.filter (fun r => r.id = id) =
        [applyPayload (editPayload rt w.page) row] ∧
      (applyPayload (editPayload rt w.page) row).id = row.id ∧
      (applyPayload (editPayload rt w.page) row).issue_key = row.issue_key ∧
      (applyPayload (editPayload rt w.page) row).created_at = row.created_at := by
  have hid : ∀ r : Issue, (applyPayload (editPayload rt w.page) r).id = r.id := by
    intro r
    simp [applyPayload, editPayload, formFields, writeStr, Payload.get]
  rw [perform_edit rt w newId createdAt id row hm hidle hedit hrow]
  refine ⟨rfl, rfl, ?_, ?_, ?_, ?_, hid row, ?_, ?_⟩
  · simp [editPayload, formFields, Payload.get]
  · simp [editPayload, formFields, Payload.get]
  · simp [editPayload, formFields, Payload.get]
  · show List.filter _ (List.map _ w.store.rows) = _
    rw [filter_map_same_id w.store.rows id _ hid, hrow]
    rfl
  · simp [applyPayload, editPayload, formFields, writeStr, Payload.get]
  · simp [applyPayload, editPayload, formFields, writeStr, Payload.get]

/-- Witness for C15: editing `i1` of the sample world with the sample form keeps its id,
key and creation time. -/
theorem onSubmit_edit_keeps_identity_witness :
    (applyPayload (editPayload sampleRuntime
        ({ sampleWorld with
            page := { sampleForm with
              issues := sampleWorld.page.issues, editingId := some "i1" } } : World).page)
      (sampleIssue "i1" "APP-0001" "Fix login Bug" (some "backlog"))).issue_key =
        (sampleIssue "i1" "APP-0001" "Fix login Bug" (some "backlog")).issue_key :=
  (onSubmit_edit_keeps_identity sampleRuntime
    { sampleWorld with
      page := { sampleForm with issues := sampleWorld.page.issues, editingId := some "i1" } }
    "" "" "i1" (sampleIssue "i1" "APP-0001" "Fix login Bug" (some "backlog"))
    (by decide) (by decide) (by decide) (by decide)).2.2.2.2.2.2.2.1

/-- C14: whatever the current status of the issue, a successful `moveIssue(id, target)`
leaves the issue with status `target`, in the store and on the page, and so does a drop of
the issue (a non-empty dragged id) on the column of status `target`. -/
theorem move_and_drop_set_status (w : World) (id target : String) (row : Issue)
    (hrow : w.store.rows.filter (fun r => r.id = id) = [row]) :
    ((w.perform "" "" (fun remote st => moveIssue remote st id target)).store.rows.filter
        (fun r => r.id = id) = [{ row with status := some target }] ∧
      (w.perform "" "" (fun remote st => moveIssue remote st id target)).page.issues =
        w.page.issues.map
          (fun issue => if issue.id = id then { row with status := some target } else issue)) ∧
    (id ≠ "" →
      (w.perform "" "" (fun remote st => onDropColumn remote st id target)).store.rows.filter
          (fun r => r.id = id) = [{ row with status := some target }] ∧
        (w.perform "" "" (fun remote st => onDropColumn remote st id target)).page.issues =
          w.page.issues.map
            (fun issue => if issue.id = id then { row with status := some target } else issue) ∧
        (w.perform "" "" (fun remote st => onDropColumn remote st id target)).page.dragStatus =
          "") := by
  have hfilter : (w.store.rows.map
      (fun r => if r.id = id then { r with status := some target } else r)).filter
        (fun r => r.id = id) = [{ row with status := some target }] := by
    rw [filter_map_same_id w.store.rows id (fun r => { r with status := some target })
      (fun _ => rfl), hrow]
    rfl
  constructor
  · rw [perform_move w id target row hrow]
    exact ⟨hfilter, rfl⟩
  · intro hid
    have hdrop : w.perform "" "" (fun remote st => onDropColumn remote st id target) =
        { page :=
            { w.page with
              issues := w.page.issues.map
                (fun issue => if issue.id = id then { row with status := some target } else issue),
              dragStatus := "" }
          store :=
            { rows := w.store.rows.map
                (fun r => if r.id = id then { r with status := some target } else r) }
          sent := w.sent ++ [Request.update id (movePayload target)] } := by
      simp [World.perform, onDropColumn, hid, moveIssue, Store.remote, Store.apply, hrow,
        applyPayload_move]
    rw [hdrop]
    exact ⟨hfilter, rfl, rfl⟩

/-- Witness for C14: dropping the done issue `i2` of the sample world on the backlog
column leaves it with status `backlog`. -/
theorem move_and_drop_set_status_witness :
    (sampleWorld.perform "" ""
        (fun remote st => onDropColumn remote st "i2" "backlog")).store.rows.filter
      (fun r => r.id = "i2") =
        [{ sampleIssue "i2" "APP-0002" "Write docs" (some "done") with
            status := some "backlog" }] :=
  ((move_and_drop_set_status sampleWorld "i2" "backlog"
    (sampleIssue "i2" "APP-0002" "Write docs" (some "done")) (by decide)).2 (by decide)).1

theorem find_of_filter (l : List Issue) (id : String) (row : Issue)
    (h : l.filter (fun r => r.id = id) = [row]) :
    l.find? (fun r => r.id = id) = some row := by
  induction l with
  | nil => simp at h
  | cons r l ih =>
    by_cases hr : r.id = id
    · simp only [List.filter_cons, hr, decide_True, if_true, List.cons.injEq] at h
      obtain ⟨h1, _⟩ := h
      subst h1
      simp [List.find?_cons, hr]
    · simp only [List.filter_cons, hr, decide_False] at h
      simp [List.find?_cons, hr, ih h]

theorem clickForward_synced (w : World) (id tab target : String) (row : Issue)
    (h : Synced w id tab row) (hf : forwardStatus tab row.status = some target) :
    Synced (World.clickForward id w) id tab { row with status := some target } := by
  obtain ⟨hstore, hpage, htab⟩ := h
  have hid : row.id = id := id_of_filter _ id row hstore
  have hclick : World.clickForward id w =
      w.perform "" "" (fun remote st => moveIssue remote st id target) := by
    unfold World.clickForward
    rw [find_of_filter _ id row hpage]
    simp only [World.perform, onMove, htab, hf, hid]
  rw [hclick, perform_move w id target row hstore]
  refine ⟨?_, ?_, htab⟩
  · show List.filter _ (List.map _ w.store.rows) = _
    rw [filter_map_same_id w.store.rows id (fun r => { r with status := some target })
      (fun _ => rfl), hstore]
    rfl
  · show List.filter _ (List.map _ w.page.issues) = _
    rw [filter_map_replace w.page.issues id ({ row with status := some target } : Issue) hid,
      hpage]
    rfl

theorem four_clicks (w : World) (id tab s t1 t2 t3 : String) (row : Issue)
    (h : Synced w id tab row) (hs : row.status = some s)
    (h1 : forwardStatus tab (some s) = some t1) (h2 : forwardStatus tab (some t1) = some t2)
    (h3 : forwardStatus tab (some t2) = some t3) (h4 : forwardStatus tab (some t3) = some s) :
    Synced ((World.clickForward id)^[4] w) id tab row := by
  have a1 := clickForward_synced w id tab t1 row h (by rw [hs]; exact h1)
  have a2 := clickForward_synced _ id tab t2 _ a1 h2
  have a3 := clickForward_synced _ id tab t3 _ a2 h3
  have a4 := clickForward_synced _ id tab s _ a3 h4
  have hrow : ({ ({ ({ ({ row with status := some t1 } : Issue) with status := some t2 } : Issue)
      with status := some t3 } : Issue) with status := some s } : Issue) = row := by
    cases row
    simp only at hs
    subst hs
    rfl
  rw [hrow] at a4
  exact a4

theorem clickForward_eq_move (w : World) (id tab target : String) (row : Issue)
    (h : Synced w id tab row) (hf : forwardStatus tab row.status = some target) :
    World.clickForward id w =
      w.perform "" "" (fun remote st => moveIssue remote st id target) := by
  obtain ⟨hstore, hpage, htab⟩ := h
  have hid : row.id = id := id_of_filter _ id row hstore
  unfold World.clickForward
  rw [find_of_filter _ id row hpage]
  simp only [World.perform, onMove, htab, hf, hid]

theorem forwardStatus_next (tab : String) (k : Nat) (hk : k < 4) :
    forwardStatus tab (columnStatuses tab)[k]? = (columnStatuses tab)[(k + 1) % 4]? := by
  unfold columnStatuses
  by_cases htab : tab = "board"
  · subst htab
    interval_cases k <;> decide
  · interval_cases k <;> simp [forwardStatus, htab]

/-- C13: the forward action of each column passes the status of the next column of its
view and the last column wraps to the first (standard board: backlog, sprint,
in_progress, done, backlog; sprint board: sprint, in_progress, done, released, sprint);
the `onMove` handler of a card is `moveIssue` with that status, so one forward click
sends the update of `status`, leaves the issue with the next status in the store and on
the page and puts it in the next column; hence four forward actions from any column of a
view lead back to the starting status, for the status itself and for the issue in the
store and on the page. -/
theorem forward_moves_cycle :
    (forwardStatus "board" (some "backlog") = some "sprint" ∧
      forwardStatus "board" (some "sprint") = some "in_progress" ∧
      forwardStatus "board" (some "in_progress") = some "done" ∧
      forwardStatus "board" (some "done") = some "backlog") ∧
    (forwardStatus "sprint" (some "sprint") = some "in_progress" ∧
      forwardStatus "sprint" (some "in_progress") = some "done" ∧
      forwardStatus "sprint" (some "done") = some "released" ∧
      forwardStatus "sprint" (some "released") = some "sprint") ∧
    (∀ (tab : String) (k : Nat), k < 4 →
      forwardStatus tab (columnStatuses tab)[k]? = (columnStatuses tab)[(k + 1) % 4]?) ∧
    (∀ (remote : Remote) (st : PageState) (issue : Issue) (target : String),
      forwardStatus st.activeTab issue.status = some target →
      onMove remote st issue = moveIssue remote st issue.id target) ∧
    (∀ (w : World) (id tab target : String) (row : Issue), Synced w id tab row →
      forwardStatus tab row.status = some target →
      (World.clickForward id w).sent =
          w.sent ++ [Request.update id [("status", JsValue.str target)]] ∧
        Synced (World.clickForward id w) id tab { row with status := some target } ∧
        ({ row with status := some target } : Issue) ∈
          withStatus (World.clickForward id w).page.issues target) ∧
    (∀ tab s : String, s ∈ columnStatuses tab →
      (forwardStatus tab)^[4] (some s) = some s) ∧
    (∀ (w : World) (id tab s : String) (row : Issue), Synced w id tab row →
      row.status = some s → s ∈ columnStatuses tab →
      Synced ((World.clickForward id)^[4] w) id tab row) := by
  refine ⟨by decide, by decide, forwardStatus_next, ?_, ?_, ?_, ?_⟩
  · intro remote st issue target hf
    unfold onMove
    rw [hf]
  · intro w id tab target row hsync hf
    have hafter := clickForward_synced w id tab target row hsync hf
    refine ⟨?_, hafter, ?_⟩
    · rw [clickForward_eq_move w id tab target row hsync hf,
        perform_move w id target row hsync.1]
      rfl
    · have hmem : ({ row with status := some target } : Issue) ∈
          (World.clickForward id w).page.issues.filter (fun issue => issue.id = id) := by
        rw [hafter.2.1]
        exact List.mem_singleton.2 rfl
      unfold withStatus
      exact List.mem_filter.2 ⟨(List.mem_filter.1 hmem).1, by simp⟩
  · intro tab s hs
    unfold columnStatuses at hs
    by_cases htab : tab = "board"
    · simp only [htab, if_true, List.mem_cons, List.mem_singleton, List.not_mem_nil,
        or_false] at hs
      subst htab
      rcases hs with h | h | h | h <;> subst h <;> decide
    · simp only [htab, if_false, List.mem_cons, List.mem_singleton, List.not_mem_nil,
        or_false] at hs
      rcases hs with h | h | h | h <;> subst h <;>
        simp [Function.iterate_succ, forwardStatus, htab]
  · intro w id tab s row hsync hstatus hs
    unfold columnStatuses at hs
    by_cases htab : tab = "board"
    · simp only [htab, if_true, List.mem_cons, List.mem_singleton, List.not_mem_nil,
        or_false] at hs
      subst htab
      rcases hs with h | h | h | h <;> subst h
      · exact four_clicks w id _ _ "sprint" "in_progress" "done" row hsync hstatus
          (by decide) (by decide) (by decide) (by decide)
      · exact four_clicks w id _ _ "in_progress" "done" "backlog" row hsync hstatus
          (by decide) (by decide) (by decide) (by decide)
      · exact four_clicks w id _ _ "done" "backlog" "sprint" row hsync hstatus
          (by decide) (by decide) (by decide) (by decide)
      · exact four_clicks w id _ _ "backlog" "sprint" "in_progress" row hsync hstatus
          (by decide) (by decide) (by decide) (by decide)
    · simp only [htab, if_false, List.mem_cons, List.mem_singleton, List.not_mem_nil,
        or_false] at hs
      rcases hs with h | h | h | h <;> subst h
      · exact four_clicks w id _ _ "in_progress" "done" "released" row hsync hstatus
          (by simp [forwardStatus, htab]) (by simp [forwardStatus, htab])
          (by simp [forwardStatus, htab]) (by simp [forwardStatus, htab])
      · exact four_clicks w id _ _ "done" "released" "sprint" row hsync hstatus
          (by simp [forwardStatus, htab]) (by simp [forwardStatus, htab])
          (by simp [forwardStatus, htab]) (by simp [forwardStatus, htab])
      · exact four_clicks w id _ _ "released" "sprint" "in_progress" row hsync hstatus
          (by simp [forwardStatus, htab]) (by simp [forwardStatus, htab])
          (by simp [forwardStatus, htab]) (by simp [forwardStatus, htab])
      · exact four_clicks w id _ _ "sprint" "in_progress" "done" row hsync hstatus
          (by simp [forwardStatus, htab]) (by simp [forwardStatus, htab])
          (by simp [forwardStatus, htab]) (by simp [forwardStatus, htab])

/-- Witness for C13: one forward click on the backlog issue `i1` of the sample world
leaves it with status `sprint`, and four forward clicks bring it back to where it was. -/
theorem forward_moves_cycle_witness :
    Synced (World.clickForward "i1" sampleWorld) "i1" "board"
        (sampleIssue "i1" "APP-0001" "Fix login Bug" (some "sprint")) ∧
      Synced ((World.clickForward "i1")^[4] sampleWorld) "i1" "board"
        (sampleIssue "i1" "APP-0001" "Fix login Bug" (some "backlog")) :=
  ⟨(forward_moves_cycle.2.2.2.2.1 sampleWorld "i1" "board" "sprint"
      (sampleIssue "i1" "APP-0001" "Fix login Bug" (some "backlog"))
      ⟨by decide, by decide, by decide⟩ (by decide)).2.1,
    forward_moves_cycle.2.2.2.2.2.2 sampleWorld "i1" "board" "backlog"
      (sampleIssue "i1" "APP-0001" "Fix login Bug" (some "backlog"))
      ⟨by decide, by decide, by decide⟩ rfl (by decide)⟩

/-! ### Order of the stored keys: claim C11 -/

theorem keysOrdered_mono (b c : Nat) (rows : List Issue) (hbc : b ≤ c)
    (h : KeysOrdered b rows) : KeysOrdered c rows := by
  obtain ⟨ns, hk, hs, hb⟩ := h
  exact ⟨ns, hk, hs, fun n hn => Nat.le_trans (hb n hn) hbc⟩

theorem keysOrdered_map (b : Nat) (rows : List Issue) (f : Issue → Issue)
    (hf : ∀ r : Issue, (f r).issue_key = r.issue_key) (h : KeysOrdered b rows) :
    KeysOrdered b (rows.map f) := by
  obtain ⟨ns, hk, hs, hb⟩ := h
  refine ⟨ns, ?_, hs, hb⟩
  rw [← hk, List.map_map]
  apply List.map_congr_left
  intro r _
  exact hf r

theorem filter_keys_sublist (p : Issue → Bool) (rows : List Issue) :
    ∀ ns : List Nat, rows.map (fun row => row.issue_key) = ns.map keyOf →
      ∃ ks : List Nat,
        (rows.filter p).map (fun row => row.issue_key) = ks.map keyOf ∧ ks.Sublist ns := by
  induction rows with
  | nil => intro ns _; exact ⟨[], rfl, List.nil_sublist _⟩
  | cons r rows ih =>
    intro ns hk
    cases ns with
    | nil => simp at hk
    | cons n ns =>
      simp only [List.map_cons, List.cons.injEq] at hk
      obtain ⟨ks, hks, hsub⟩ := ih ns hk.2
      by_cases hp : p r = true
      · rw [List.filter_cons_of_pos hp]
        exact ⟨n :: ks, by simp [hks, hk.1], hsub.cons₂ n⟩
      · rw [List.filter_cons_of_neg hp]
        exact ⟨ks, hks, hsub.cons n⟩

theorem keysOrdered_filter (p : Issue → Bool) (b : Nat) (rows : List Issue)
    (h : KeysOrdered b rows) : KeysOrdered b (rows.filter p) := by
  obtain ⟨ns, hk, hs, hb⟩ := h
  obtain ⟨ks, hks, hsub⟩ := filter_keys_sublist p rows ns hk
  exact ⟨ks, hks, List.Pairwise.sublist hsub hs, fun m hm => hb m (hsub.subset hm)⟩

theorem keysOrdered_insert (b : Nat) (s : Store) (row : Issue) (h : KeysOrdered b s.rows)
    (hb : b < 9007199254740992)
    (hrow : row.issue_key = getNextIssueKey s.lastKey "APP") :
    KeysOrdered (b + 1) (row :: s.rows) := by
  obtain ⟨ns, hk, hs, hbound⟩ := h
  cases hrows : s.rows with
  | nil =>
    refine ⟨[1], ?_, List.sorted_singleton 1, ?_⟩
    · have hkey : row.issue_key = keyOf 1 := by
        rw [hrow]
        simp only [Store.lastKey, hrows]
        decide
      simp [hkey]
    · intro n hn
      simp only [List.mem_singleton] at hn
      omega
  | cons r rest =>
    rw [hrows] at hk
    cases ns with
    | nil => simp at hk
    | cons n ns =>
      simp only [List.map_cons, List.cons.injEq] at hk
      have hn : n ≤ b := hbound n (List.mem_cons_self _ _)
      have hlast : s.lastKey = keyOf n := by
        simp only [Store.lastKey, hrows, List.head?_cons, Option.map_some', Option.getD_some,
          hk.1]
      have hkey : row.issue_key = keyOf (n + 1) := by
        rw [hrow, hlast, getNextIssueKey_keyOf n (by omega)]
      refine ⟨(n + 1) :: n :: ns, ?_, ?_, ?_⟩
      · simp [hkey, hk.1, hk.2]
      · refine List.sorted_cons.2 ⟨?_, hs⟩
        intro m hm
        rcases List.mem_cons.1 hm with hm | hm
        · omega
        · have := (List.sorted_cons.1 hs).1 m hm
          omega
      · intro m hm
        rcases List.mem_cons.1 hm with hm | hm
        · omega
        · have := hbound m hm
          omega

theorem keysOrdered_apply (b : Nat) (s : Store) (id createdAt : String) (r : Request)
    (h : KeysOrdered b s.rows) (hb : b < 9007199254740992) (hsafe : KeySafe s r) :
    KeysOrdered (b + 1) (s.apply id createdAt r).rows := by
  cases r with
  | selectLastKey => exact keysOrdered_mono b (b + 1) _ (by omega) h
  | insert p =>
    exact keysOrdered_insert b s (newRow id createdAt p) h hb hsafe
  | update target p =>
    have hkey : ∀ row : Issue,
        (if row.id = target then applyPayload p row else row).issue_key = row.issue_key := by
      intro row
      split
      · exact hsafe row.issue_key
      · rfl
    simp only [Store.apply]
    split
    · exact keysOrdered_mono b (b + 1) _ (by omega) (keysOrdered_map b s.rows _ hkey h)
    · exact keysOrdered_mono b (b + 1) _ (by omega) h
  | delete target =>
    exact keysOrdered_mono b (b + 1) _ (by omega) (keysOrdered_filter _ b s.rows h)

theorem keysOrdered_requests (b : Nat) (s : Store) (id createdAt : String)
    (reqs : List Request) (h : KeysOrdered b s.rows) (hb : b < 9007199254740992)
    (hsafe : SafeRequests s reqs) :
    KeysOrdered (b + 1) (reqs.foldl (fun t req => t.apply id createdAt req) s).rows := by
  obtain ⟨r, hr, hshape | hshape | hshape⟩ := hsafe
  · rw [hshape]
    exact keysOrdered_mono b (b + 1) _ (by omega) h
  · rw [hshape]
    exact keysOrdered_apply b s id createdAt r h hb hr
  · rw [hshape]
    exact keysOrdered_apply b s id createdAt r h hb hr

theorem moveIssue_safe (s : Store) (remote : Remote) (st : PageState) (id status : String) :
    SafeRequests s (moveIssue remote st id status).2 := by
  refine ⟨Request.update id (movePayload status), ?_, Or.inr (Or.inl ?_)⟩
  · intro old
    simp [movePayload, writeStr, Payload.get]
  · unfold moveIssue
    cases remote.update id (movePayload status) <;> rfl

theorem deleteIssue_safe (s : Store) (remote : Remote) (st : PageState) (confirmed : Bool)
    (id : String) : SafeRequests s (deleteIssue remote st confirmed id).2 := by
  refine ⟨Request.delete id, trivial, ?_⟩
  unfold deleteIssue
  cases confirmed with
  | false => exact Or.inl rfl
  | true =>
    right; left
    simp only [Bool.not_true, Bool.false_eq_true, if_false]
    cases remote.delete id <;> rfl

theorem copyIssue_safe (s : Store) (id createdAt : String) (st : PageState)
    (confirmed : Bool) (issue : Issue) :
    SafeRequests s (copyIssue (s.remote id createdAt) st confirmed issue).2 := by
  refine ⟨Request.insert (copyPayload issue (getNextIssueKey s.lastKey "APP")), ?_, ?_⟩
  · show writeStr _ "issue_key" "" = _
    simp [copyPayload, writeStr, Payload.get]
  · unfold copyIssue
    cases confirmed with
    | false => exact Or.inl rfl
    | true =>
      right; right
      simp only [Bool.not_true, Bool.false_eq_true, if_false]
      dsimp only [Store.remote]
      rw [nextKeyOf_remote]

theorem onSubmit_idle (rt : Runtime) (remote : Remote) (st : PageState)
    (hm : missingRequired st = false) (hbusy : st.isCreating = true) :
    (onSubmit rt remote st).2 = [] := by
  have hm1 : missingRequired { st with error := "" } = false := hm
  unfold onSubmit
  dsimp only
  rw [if_neg (by rw [hm1]; simp), if_pos hbusy]

theorem onSubmit_safe (rt : Runtime) (s : Store) (id createdAt : String) (st : PageState) :
    SafeRequests s (onSubmit rt (s.remote id createdAt) st).2 := by
  by_cases hm : missingRequired st = true
  · refine ⟨Request.selectLastKey, trivial, Or.inl ?_⟩
    have hm1 : missingRequired { st with error := "" } = true := hm
    unfold onSubmit
    simp only [hm1, if_true]
  · have hm0 : missingRequired st = false := by simpa using hm
    by_cases hbusy : st.isCreating = true
    · exact ⟨Request.selectLastKey, trivial, Or.inl (onSubmit_idle rt _ st hm0 hbusy)⟩
    · have hidle : st.isCreating = false := by simpa using hbusy
      cases hedit : truthyId st.editingId with
      | some editingId =>
        refine ⟨Request.update editingId (editPayload rt st), ?_, Or.inr (Or.inl ?_)⟩
        · intro old
          simp [editPayload, formFields, writeStr, Payload.get]
        · rw [onSubmit_edit_result rt _ st editingId hm0 hidle hedit]
          cases (s.remote id createdAt).update editingId (editPayload rt st) <;> rfl
      | none =>
        refine ⟨Request.insert (createPayload rt st (getNextIssueKey s.lastKey "APP")), ?_,
          Or.inr (Or.inr ?_)⟩
        · show writeStr _ "issue_key" "" = _
          simp [createPayload, writeStr, Payload.get]
        · rw [onSubmit_create_result rt _ st hm0 hidle hedit]
          dsimp only [Store.remote]
          rw [nextKeyOf_remote]

theorem stepBoard_keys (br : Browser) (b : Nat) (w : World) (a : BoardAction)
    (h : KeysOrdered b w.store.rows) (hb : b < 9007199254740992) :
    KeysOrdered (b + 1) (stepBoard br w a).store.rows := by
  cases a with
  | user action =>
    cases action with
    | create form newId createdAt =>
      exact keysOrdered_requests b w.store newId createdAt _ h hb
        (onSubmit_safe br.toRuntime w.store newId createdAt (fillForm w.page form))
    | duplicate issue newId createdAt =>
      exact keysOrdered_requests b w.store newId createdAt _ h hb
        (copyIssue_safe w.store newId createdAt w.page true issue)
    | delete id =>
      exact keysOrdered_requests b w.store "" "" _ h hb
        (deleteIssue_safe w.store (w.store.remote "" "") w.page true id)
  | move id status =>
    exact keysOrdered_requests b w.store "" "" _ h hb
      (moveIssue_safe w.store (w.store.remote "" "") w.page id status)
  | edit issue form =>
    exact keysOrdered_requests b w.store "" "" _ h hb
      (onSubmit_safe br.toRuntime w.store "" "" (fillForm (startEdit br w.page issue) form))

theorem runBoard_keys (br : Browser) (actions : List BoardAction) :
    ∀ (b : Nat) (w : World), KeysOrdered b w.store.rows →
      b + actions.length ≤ 9007199254740992 →
      KeysOrdered (b + actions.length) (actions.foldl (stepBoard br) w).store.rows := by
  induction actions with
  | nil => intro b w h _; exact h
  | cons a rest ih =>
    intro b w h hlen
    simp only [List.length_cons] at hlen
    have hstep := stepBoard_keys br b w a h (by omega)
    have := ih (b + 1) _ hstep (by omega)
    simp only [List.length_cons, List.foldl_cons]
    rw [show b + (rest.length + 1) = b + 1 + rest.length by omega]
    exact this

theorem sequenceNumber_keyOf (n : Nat) : sequenceNumber (keyOf n) = some n := by
  have hdig : ∀ c ∈ padStart (Nat.toDigits 10 n) 4 '0', c.isDigit = true :=
    padStart_isDigit _ 4 (toDigitsCore_isDigit (n + 1) n [] (by simp))
  have hne : padStart (Nat.toDigits 10 n) 4 '0' ≠ [] := by
    unfold padStart
    intro hc
    exact toDigitsCore_ne_nil (n + 1) n [] (by omega) (List.append_eq_nil.1 hc).2
  have hm : regExpExec "APP".data (keyOf n).data = some (padStart (Nat.toDigits 10 n) 4 '0') :=
    (regExpExec_eq_some _ _ _).2 ⟨hne, hdig, rfl⟩
  unfold sequenceNumber
  rw [hm, Option.map_some', digitsValue_padStart, digitsValue_toDigits]

/-- C11 (amended): in every state reached from an empty store by at most `2^53` create,
duplicate, move, edit and delete actions of a single client, performed one after another,
the sequence numbers of the stored issues' keys strictly increase with creation order
(the table is newest first, so they strictly decrease along it), and the keys of the
stored issues are pairwise distinct. -/
theorem stored_keys_increase (br : Browser) (actions : List BoardAction)
    (hlen : actions.length ≤ 2 ^ 53) :
    (∃ ns : List Nat,
        (runBoard br actions).store.rows.map (fun row => sequenceNumber row.issue_key) =
          ns.map some ∧ ns.Sorted (fun a b => a > b)) ∧
      ((runBoard br actions).store.rows.map (fun row => row.issue_key)).Nodup := by
  have h53 : (2 : Nat) ^ 53 = 9007199254740992 := by norm_num
  have h0 : KeysOrdered 0 ({} : World).store.rows :=
    ⟨[], rfl, List.sorted_nil, fun n hn => absurd hn (List.not_mem_nil n)⟩
  obtain ⟨ns, hk, hs, _⟩ := runBoard_keys br actions 0 {} h0 (by omega)
  have hk1 : (runBoard br actions).store.rows.map (fun row => row.issue_key) =
      ns.map keyOf := hk
  constructor
  · refine ⟨ns, ?_, hs⟩
    have hmap := congrArg (List.map sequenceNumber) hk1
    simp only [List.map_map] at hmap
    rw [show (fun row : Issue => sequenceNumber row.issue_key) =
      sequenceNumber ∘ (fun row : Issue => row.issue_key) from rfl, hmap]
    apply List.map_congr_left
    intro n _
    exact sequenceNumber_keyOf n
  · rw [hk1]
    refine List.Nodup.map ?_ ?_
    · intro a b hab
      exact keyOf_injective a b hab
    · exact (List.Pairwise.imp (fun hab => Nat.ne_of_gt hab) hs)

/-- Witness for C11: two creates, a move, an edit, a delete of the newest issue and a
duplicate leave two stored issues, numbered 2 and 1 from the newest. -/
theorem stored_keys_increase_witness :
    (runBoard sampleBrowser
      [BoardAction.user (UserAction.create sampleInput "i1" "t1"),
        BoardAction.user (UserAction.create sampleInput "i2" "t2"),
        BoardAction.move "i1" "done",
        BoardAction.edit (sampleIssue "i1" "APP-0001" "a" (some "done"))
          { summary := "x", description := "y", acceptanceCriteria := "z" },
        BoardAction.user (UserAction.delete "i2"),
        BoardAction.user (UserAction.duplicate
          (sampleIssue "i1" "APP-0001" "x" (some "done")) "i3" "t3")]).store.rows.map
      (fun row => row.issue_key) = ["APP-0002", "APP-0001"] ∧
    ((runBoard sampleBrowser
      [BoardAction.user (UserAction.create sampleInput "i1" "t1"),
        BoardAction.user (UserAction.create sampleInput "i2" "t2"),
        BoardAction.move "i1" "done",
        BoardAction.edit (sampleIssue "i1" "APP-0001" "a" (some "done"))
          { summary := "x", description := "y", acceptanceCriteria := "z" },
        BoardAction.user (UserAction.delete "i2"),
        BoardAction.user (UserAction.duplicate
          (sampleIssue "i1" "APP-0001" "x" (some "done")) "i3" "t3")]).store.rows.map
      (fun row => row.issue_key)).Nodup :=
  ⟨by decide,
    (stored_keys_increase sampleBrowser
      [BoardAction.user (UserAction.create sampleInput "i1" "t1"),
        BoardAction.user (UserAction.create sampleInput "i2" "t2"),
        BoardAction.move "i1" "done",
        BoardAction.edit (sampleIssue "i1" "APP-0001" "a" (some "done"))
          { summary := "x", description := "y", acceptanceCriteria := "z" },
        BoardAction.user (UserAction.delete "i2"),
        BoardAction.user (UserAction.duplicate
          (sampleIssue "i1" "APP-0001" "x" (some "done")) "i3" "t3")] (by decide)).2⟩

theorem step_create_valid (rt : Runtime) (n : Nat) (w : World) (form : FormInput)
    (newId createdAt : String) (h : RunInvariant n w) (hn : n < 9007199254740992)
    (hvalid : missingRequired (fillForm w.page form) = false) :
    RunInvariant (n + 1) (step rt w (UserAction.create form newId createdAt)) ∧
      (step rt w (UserAction.create form newId createdAt)).store.rows =
        newRow newId createdAt
          (createPayload rt (fillForm w.page form) (getNextIssueKey w.store.lastKey "APP")) ::
            w.store.rows := by
  have hstep : step rt w (UserAction.create form newId createdAt) =
      World.perform { w with page := fillForm w.page form } newId createdAt (onSubmit rt) := rfl
  have h1 : RunInvariant n { w with page := fillForm w.page form } :=
    invariant_congr n w { w with page := fillForm w.page form } rfl rfl rfl rfl h
  have hperf := perform_create rt { w with page := fillForm w.page form } newId createdAt
    hvalid h1.2.1 h1.1
  rw [hstep, hperf]
  refine ⟨?_, rfl⟩
  have hp : writeStr
      (createPayload rt (fillForm w.page form) (getNextIssueKey w.store.lastKey "APP"))
      "issue_key" "" = getNextIssueKey w.store.lastKey "APP" := by
    simp [createPayload, writeStr, Payload.get]
  exact invariant_after_insert n { w with page := fillForm w.page form } _ _ _ h1 hn rfl rfl hp
    (newRow_create rt (fillForm w.page form) newId createdAt _).1

theorem step_create_rows (rt : Runtime) (n : Nat) (w : World) (form : FormInput)
    (newId createdAt : String) (h : RunInvariant n w)
    (hvalid : missingRequired (fillForm w.page form) = false) :
    (step rt w (UserAction.create form newId createdAt)).store.rows =
      newRow newId createdAt
        (createPayload rt (fillForm w.page form) (getNextIssueKey w.store.lastKey "APP")) ::
          w.store.rows := by
  have hstep : step rt w (UserAction.create form newId createdAt) =
      World.perform { w with page := fillForm w.page form } newId createdAt (onSubmit rt) := rfl
  have hperf := perform_create rt { w with page := fillForm w.page form } newId createdAt
    hvalid h.2.1 h.1
  rw [hstep, hperf]

theorem sampleInput_valid (st : PageState) :
    missingRequired (fillForm st sampleInput) = false := by
  rfl

theorem run_creates_succ (rt : Runtime) (k : Nat) :
    run rt (creates (k + 1)) =
      step rt (run rt (creates k))
        (UserAction.create sampleInput (Nat.repr (k + 1)) (Nat.repr (k + 1))) := by
  unfold run creates
  rw [List.range_succ, List.map_append, List.foldl_append]
  rfl

theorem run_creates (rt : Runtime) (k : Nat) (hk : k ≤ 9007199254740992) :
    RunInvariant k (run rt (creates k)) := by
  induction k with
  | zero => exact ⟨rfl, rfl, rfl, Or.inl ⟨rfl, rfl⟩⟩
  | succ k ih =>
    rw [run_creates_succ]
    exact (step_create_valid rt k _ sampleInput _ _ (ih (by omega)) (by omega)
      (sampleInput_valid _)).1

theorem runBoard_user (br : Browser) (actions : List UserAction) :
    runBoard br (actions.map BoardAction.user) = run br.toRuntime actions := by
  unfold runBoard run
  rw [List.foldl_map]
  rfl

/-- Counterexample to C11 as stated: after `2^53 + 1` successful creates from an empty
store the two most recently created issues both have the key `APP-9007199254740992`; the
sequence number did not increase and the stored keys are not pairwise distinct. -/
theorem stored_keys_repeat_after_two_pow_53 :
    ((runBoard sampleBrowser
        ((creates (9007199254740992 + 1)).map BoardAction.user)).store.rows.take 2).map
      (fun row => row.issue_key) = ["APP-9007199254740992", "APP-9007199254740992"] ∧
    ¬ ((runBoard sampleBrowser
        ((creates (9007199254740992 + 1)).map BoardAction.user)).store.rows.map
      (fun row => row.issue_key)).Nodup := by
  have hinv := run_creates sampleBrowser.toRuntime 9007199254740992 (Nat.le_refl _)
  rw [runBoard_user, run_creates_succ]
  generalize run sampleBrowser.toRuntime (creates 9007199254740992) = w at hinv ⊢
  rcases hinv.2.2.2 with ⟨h0, _⟩ | ⟨_, row, rest, hrows, hkey⟩
  · exact absurd h0 (by decide)
  · have hlast : w.store.lastKey = keyOf 9007199254740992 := by
      simp only [Store.lastKey, hrows, List.head?_cons, Option.map_some', Option.getD_some,
        hkey]
    have hnext : getNextIssueKey (keyOf 9007199254740992) "APP" = "APP-9007199254740992" := by
      decide
    have hk : keyOf 9007199254740992 = "APP-9007199254740992" := by decide
    have hfst : (newRow (Nat.repr (9007199254740992 + 1)) (Nat.repr (9007199254740992 + 1))
        (createPayload sampleBrowser.toRuntime (fillForm w.page sampleInput)
          (getNextIssueKey w.store.lastKey "APP"))).issue_key = "APP-9007199254740992" := by
      rw [(newRow_create _ _ _ _ _).1, hlast, hnext]
    have hrows2 : (step sampleBrowser.toRuntime w
        (UserAction.create sampleInput (Nat.repr (9007199254740992 + 1))
          (Nat.repr (9007199254740992 + 1)))).store.rows =
        newRow (Nat.repr (9007199254740992 + 1)) (Nat.repr (9007199254740992 + 1))
          (createPayload sampleBrowser.toRuntime (fillForm w.page sampleInput)
            (getNextIssueKey w.store.lastKey "APP")) :: row :: rest := by
      rw [← hrows]
      exact step_create_rows sampleBrowser.toRuntime 9007199254740992 w sampleInput _ _
        hinv (sampleInput_valid _)
    rw [hrows2]
    constructor
    · simp only [List.take_succ_cons, List.take_zero, List.map_cons, List.map_nil, hfst, hkey,
        hk]
    · simp only [List.map_cons, List.nodup_cons, List.mem_cons, hfst, hkey, hk, true_or,
        not_true_eq_false, false_and, not_false_eq_true]

end JiraLite
